import Mathlib

/-!
# mySystemStats: the delta engine, the history buffers and the tick loop

A shallow embedding of `statsfunc.c` and `mySystemStats.c`.

Conventions of the embedding

* `long int` and `int` values are mathematical integers (`Int`); signed overflow
  is undefined in C and is outside the model.
* `double` values are exact rationals (`ℚ`); `1e-6` is `1 / 1000000` and `0.01`
  is `1 / 100`.  `fabs` is the absolute value and the cast `(int) x` truncates
  toward zero.
* A C string (the bytes of a buffer up to its first NUL) is a `List Char`.  A row
  of a history buffer `char record[samples][MAX_STR_LEN]` is such a string; the
  buffers are zero-filled by `memset` before the loop and a row is written at one
  tick only, so the bytes behind a row's terminator are NUL when it is extended.
* The parent process is the program that is modelled.  What it prints is a list
  of events, one event per `printf`/`perror` call; what the kernel and the
  collector children deliver at a tick is an input record (`TickEnv`).
-/

namespace SystemStats

/-- The bytes of a C string up to its terminator. -/
abbrev CStr := List Char

/-- The constant `MAX_STR_LEN` of header.h (1024). -/
abbrev MAX_STR_LEN : Nat := 1024

/-- The struct `MemoryInfo` of header.h. -/
structure MemoryInfo where
  total_memory : ℚ
  used_memory : ℚ
  total_virtual : ℚ
  used_virtual : ℚ
deriving DecidableEq

/-- The struct `CPU` (`struct CPUUsage`) of header.h: `time` is the idle counter. -/
structure CPU where
  time : Int
  tot : Int
deriving DecidableEq

/-! ## Formatting (`printf` conversions) -/

/-- Nearest integer of a non-negative rational, ties to the even neighbour. -/
def roundHalfEven (q : ℚ) : Nat :=
  let f := ⌊q⌋₊
  let r := q - (f : ℚ)
  if r < 1 / 2 then f
  else if 1 / 2 < r then f + 1
  else if f % 2 = 0 then f else f + 1

/-- The conversion `%.2f` of `printf` on an exact value. -/
def fmt2 (q : ℚ) : CStr :=
  let h := roundHalfEven (|q| * 100)
  let frac := h % 100
  (if q < 0 then ['-'] else []) ++ (toString (h / 100)).toList ++ ['.']
    ++ [Char.ofNat (48 + frac / 10), Char.ofNat (48 + frac % 10)]

/-- The conversions `%d` and `%ld` of `printf`. -/
def fmtInt (n : Int) : CStr := (toString n).toList

/-- The cast `(int) x` of a double: truncation toward zero. -/
def truncToInt (q : ℚ) : Int :=
  if 0 ≤ q then ⌊q⌋ else ⌈q⌉

/-! ## CPU utilization (`cpu_output`, statsfunc.c 274-289) -/

/-- The constant `1e-6` of `cpu_output`. -/
def epsilon : ℚ := 1 / 1000000

/-- The local `totald`: `(double) total_cur - (double) total_prev`. -/
def totald (cpu_previous time_previous : Int) (info : CPU) : ℚ :=
  let total_prev : Int := cpu_previous + time_previous
  let total_cur : Int := info.time + info.tot
  (total_cur : ℚ) - (total_prev : ℚ)

/-- The local `idled`: `(double) info.time - (double) *time_previous`. -/
def idled (time_previous : Int) (info : CPU) : ℚ :=
  (info.time : ℚ) - (time_previous : ℚ)

/-- The value of `cpu_use` that `cpu_output` prints: the `fabs` expression
followed by `if (cpu_use > 100) cpu_use = 100;`. -/
def cpu_use (cpu_previous time_previous : Int) (info : CPU) : ℚ :=
  let td := totald cpu_previous time_previous info
  let id := idled time_previous info
  let u : ℚ := |(1000 * (td - id) / (td + epsilon) + 1) / 10|
  if u > 100 then 100 else u

/-! ## Events: one constructor per kind of `printf` call of the parent -/

/-- What the parent writes to standard output, one value per `printf` call. -/
inductive Out where
  /-- The call `printf("\x1b%d", 7)` of `printinfo`. -/
  | cursorSave
  /-- The call `printf("\x1b%d", 8)` of `printinfo`. -/
  | cursorRestore
  /-- The call `printf(">>> iteration %d\n", i+1)` of `printinfo`. -/
  | iteration (n : Int)
  /-- The call `printf("%s", record[j])` of `memoryUsage`. -/
  | memoryRow (j : Nat) (row : CStr)
  /-- The call `printf("%s\n", record[j])` of `appendAndPrintCpuGraphics`. -/
  | cpuRow (j : Nat) (row : CStr)
  /-- Every other `printf` call, with the text it prints. -/
  | text (s : CStr)
deriving DecidableEq

/-- The bytes that an output event puts on the terminal. -/
def Out.render : Out → CStr
  | .cursorSave => [Char.ofNat 27, '7']
  | .cursorRestore => [Char.ofNat 27, '8']
  | .iteration n => ">>> iteration ".toList ++ fmtInt n ++ "\n".toList
  | .memoryRow _ row => row
  | .cpuRow _ row => row ++ "\n".toList
  | .text s => s

/-- Row `i` of a history buffer (`record[i]`). -/
def getRow (record : List CStr) (i : Nat) : CStr := record.getD i []

/-! ## Memory graphics (`appendMemoryGraphicToTail`, statsfunc.c 82-121) -/

/-- The value of `*memory_previous` after `if (i == 0) *memory_previous = memory_current;`. -/
def seedPrevious (memory_current memory_previous : ℚ) (i : Nat) : ℚ :=
  if i = 0 then memory_current else memory_previous

/-- The local `diff`: `memory_current - *memory_previous`. -/
def memory_diff (memory_current memory_previous : ℚ) (i : Nat) : ℚ :=
  memory_current - seedPrevious memory_current memory_previous i

/-- The local `abs_diff`: `fabs(diff)`. -/
def memory_abs_diff (memory_current memory_previous : ℚ) (i : Nat) : ℚ :=
  |memory_diff memory_current memory_previous i|

/-- The local `visual_len`: `(int)( abs_diff / 0.01 )`. -/
def visual_len (memory_current memory_previous : ℚ) (i : Nat) : Int :=
  truncToInt (memory_abs_diff memory_current memory_previous i / (1 / 100))

/-- The glyph `sign` chosen by the branch on `diff >= 0`. -/
def memory_sign (memory_current memory_previous : ℚ) (i : Nat) : Char :=
  if memory_diff memory_current memory_previous i ≥ 0 then '#' else ':'

/-- The marker `last_char` chosen by the branch on `diff >= 0` and `visual_len == 0`. -/
def memory_last_char (memory_current memory_previous : ℚ) (i : Nat) : Char :=
  if memory_diff memory_current memory_previous i ≥ 0 then
    (if visual_len memory_current memory_previous i = 0 then 'o' else '*')
  else '@'

/-- The text of `" %.2f (%.2f)\n"` applied to `abs_diff` and `memory_current`. -/
def memory_suffix (abs_diff memory_current : ℚ) : CStr :=
  " ".toList ++ fmt2 abs_diff ++ " (".toList ++ fmt2 memory_current ++ ")\n".toList

/-- The row `record[i]` after the two writing steps of `appendMemoryGraphicToTail`:
the loop stores `sign` at `visual_start + j` for every `j < visual_len` with
`visual_start + j + 6 < 1023`, and when `visual_start + visual_len + 6 < 1023`
the marker and the `snprintf` text (cut to the size given to `snprintf`, less the
terminator) follow. -/
def memory_graphic_row (row : CStr) (memory_current memory_previous : ℚ) (i : Nat) : CStr :=
  let visual_start : Nat := row.length
  let vl : Nat := (visual_len memory_current memory_previous i).toNat
  let glyphs := List.replicate (min vl (1017 - visual_start))
    (memory_sign memory_current memory_previous i)
  if visual_start + vl + 6 < 1023 then
    row ++ glyphs ++ [memory_last_char memory_current memory_previous i]
      ++ (memory_suffix (memory_abs_diff memory_current memory_previous i) memory_current).take
          (1024 - visual_start - vl - 1 - 1)
  else row ++ glyphs

/-- The function `appendMemoryGraphicToTail`: the new `*memory_previous` and the new
`record`. -/
def appendMemoryGraphicToTail (memory_current memory_previous : ℚ) (i : Nat)
    (record : List CStr) : ℚ × List CStr :=
  (memory_current,
   record.set i (memory_graphic_row (getRow record i) memory_current memory_previous i))

/-! ## Memory rows (`memoryUsage`, statsfunc.c 19-55) -/

/-- The text that `sprintf` stores in `record[i]` (lines 38-39). -/
def memory_base (info : MemoryInfo) (graph : Bool) : CStr :=
  fmt2 info.used_memory ++ " GB / ".toList ++ fmt2 info.total_memory ++ " GB -- ".toList
    ++ fmt2 info.used_virtual ++ " GB/ ".toList ++ fmt2 info.total_virtual
    ++ (if graph then " GB\t|".toList else " GB\n".toList)

/-- The first printing loop of `memoryUsage` (lines 44-51), for `j = 0 .. i`. -/
def memory_print_rows (i : Nat) (seq : Bool) (record : List CStr) : List Out :=
  (List.range (i + 1)).map fun j =>
    if !seq || j = i then Out.memoryRow j (getRow record j) else Out.text "\n".toList

/-- The second printing loop of `memoryUsage` (lines 52-54). -/
def memory_padding (samples : Int) (i : Nat) : List Out :=
  List.replicate (samples - (i : Int) - 1).toNat (Out.text "\n".toList)

/-- What a call of `memoryUsage` leaves behind. -/
structure MemoryUsageResult where
  out : List Out
  err : List CStr
  previous : ℚ
  record : List CStr
  /-- Whether `kill(getpid(), SIGTERM)` was reached. -/
  killed : Bool

/-- The function `memoryUsage`.  `sysinfoOk` tells whether the second `sysinfo` call
succeeds and `maxrss` is `usage.ru_maxrss`.  When `sysinfo` fails the process sends
itself SIGTERM, for which no handler is installed, and stops there. -/
def memoryUsage (samples : Int) (i : Nat) (info : MemoryInfo) (graph seq : Bool)
    (previous : ℚ) (record : List CStr) (maxrss : Int) (sysinfoOk : Bool) :
    MemoryUsageResult :=
  if sysinfoOk = false then
    { out := []
      err := ["Failed to get system information. (%s)\n".toList,
              "Terminating the process and its parent.\n".toList]
      previous := previous, record := record, killed := true }
  else
    let banner : List Out :=
      [Out.text ("MemoryUsage: ".toList ++ fmtInt maxrss ++ " kilobytes\n".toList),
       Out.text "--------------------------------------------\n".toList,
       Out.text "### Memory ### (Phys.Used/Tot -- Virtual Used/Tot)\n".toList]
    let record1 := record.set i (memory_base info graph)
    let pr : ℚ × List CStr :=
      if graph then appendMemoryGraphicToTail info.used_memory previous i record1
      else (previous, record1)
    { out := banner ++ memory_print_rows i seq pr.2 ++ memory_padding samples i
      err := []
      previous := pr.1, record := pr.2, killed := false }

/-! ## CPU rows (`appendAndPrintCpuGraphics` and `cpu_output`, statsfunc.c 251-289) -/

/-- The value of `visualLength` after the cap at `MAX_STR_LEN - 10`. -/
def cpu_visualLength (usage : ℚ) : Int :=
  let usageBars : Int := truncToInt usage
  let visualLength : Int := usageBars + 3
  if visualLength > (MAX_STR_LEN : Int) - 10 then (MAX_STR_LEN : Int) - 10 else visualLength

/-- The row built by `appendAndPrintCpuGraphics`: `"|||"`, then bars up to
`visualLength`, then the `snprintf` text at offset `visualLength`, cut to the size
given to `snprintf` less the terminator.  (A negative `visualLength` would index
before the row and is outside the model.) -/
def cpu_graphic_row (usage : ℚ) : CStr :=
  let vl : Nat := (cpu_visualLength usage).toNat
  ("|||".toList ++ List.replicate (vl - 3) '|').take vl
    ++ (" ".toList ++ fmt2 usage ++ "%".toList).take (MAX_STR_LEN - vl - 1)

/-- The function `appendAndPrintCpuGraphics`: what it prints and the new `record`. -/
def appendAndPrintCpuGraphics (usage : ℚ) (i : Nat) (record : List CStr) :
    List Out × List CStr :=
  let record1 := record.set i (cpu_graphic_row usage)
  ((List.range (i + 1)).map (fun j => Out.cpuRow j (getRow record1 j)), record1)

/-- What a call of `cpu_output` leaves behind. -/
structure CpuOutputResult where
  out : List Out
  cpu_previous : Int
  time_previous : Int
  record : List CStr

/-- The function `cpu_output`; `cores` is the value of `count_cores()`. -/
def cpu_output (graphics : Bool) (i : Nat) (cpu_previous time_previous : Int) (info : CPU)
    (record : List CStr) (cores : Int) : CpuOutputResult :=
  let u := cpu_use cpu_previous time_previous info
  let lines : List Out :=
    [Out.text "--------------------------------------------\n".toList,
     Out.text ("Number of Cores: ".toList ++ fmtInt cores ++ "\n".toList),
     Out.text ("CPU Usage: ".toList ++ fmt2 u ++ "%\n".toList)]
  let g : List Out × List CStr :=
    if graphics then appendAndPrintCpuGraphics u i record else ([], record)
  { out := lines ++ g.1, cpu_previous := info.tot, time_previous := info.time, record := g.2 }

/-! ## The tick loop (`printinfo`, mySystemStats.c 75-201) -/

/-- The three collector children forked at every iteration. -/
inductive Collector where
  | memory
  | user
  | cpu
deriving DecidableEq

/-- How the parent process stands after a step. -/
inductive Status where
  | running
  /-- The call `exit(code)` was reached. -/
  | exited (code : Int)
  /-- Ended by the SIGTERM the process sent to itself. -/
  | killed
deriving DecidableEq

/-- The arguments of `printinfo`. -/
structure Config where
  samples : Int
  delay : Int
  seq : Bool
  sys : Bool
  user : Bool
  graph : Bool
deriving DecidableEq

/-- What the kernel and the collector children deliver to the parent at one
iteration. -/
structure TickEnv where
  /-- All three `pipe` calls succeed. -/
  pipeOk : Bool
  /-- The three `fork` calls, in program order. -/
  forkMemoryOk : Bool
  forkUserOk : Bool
  forkCpuOk : Bool
  /-- The `read` from `pipe_memory` does not return -1. -/
  memReadOk : Bool
  /-- The contents of `info` after that `read`. -/
  mem : MemoryInfo
  /-- The second `sysinfo` call inside `memoryUsage` succeeds. -/
  sysinfoOk : Bool
  /-- The field `usage.ru_maxrss`. -/
  maxrss : Int
  /-- The chunks read from `pipe_user` until `read` returns 0 or -1. -/
  users : List CStr
  /-- The `read` from `pipe_cpu` does not return -1. -/
  cpuReadOk : Bool
  /-- The contents of `cpu_stats` after that `read`. -/
  cpu : CPU
  /-- The value of `count_cores()`. -/
  cores : Int

/-- The local variables of `printinfo` that live across iterations. -/
structure Machine where
  memory_record : List CStr
  cpu_record : List CStr
  cpu_previous : Int
  cpu_idle : Int
  memory_previous : ℚ

/-- What one iteration of the loop of `printinfo` does in the parent. -/
structure TickResult where
  machine : Machine
  out : List Out
  err : List CStr
  forked : List Collector
  slept : Option Int
  status : Status

/-- The value of `EXIT_FAILURE`. -/
def EXIT_FAILURE : Int := 1

/-- An iteration that ends in `perror(msg); exit(EXIT_FAILURE);` before the parent
prints anything. -/
def tickAbort (m : Machine) (msg : String) (forked : List Collector) : TickResult :=
  { machine := m, out := [], err := [msg.toList], forked := forked, slept := none,
    status := Status.exited EXIT_FAILURE }

/-- The tick header (lines 150-156). -/
def tickHeader (cfg : Config) (i : Nat) : List Out :=
  [if !cfg.seq then Out.cursorSave else Out.iteration ((i : Int) + 1),
   Out.text ("Number of samples: ".toList ++ fmtInt cfg.samples ++ " -- every ".toList
      ++ fmtInt cfg.delay ++ " secs\n".toList)]

/-- The memory step of the parent (lines 157-165). -/
def tickMemory (cfg : Config) (i : Nat) (e : TickEnv) (m : Machine) : MemoryUsageResult :=
  if cfg.sys then
    let r := memoryUsage cfg.samples i e.mem cfg.graph cfg.seq m.memory_previous
      m.memory_record e.maxrss e.sysinfoOk
    { r with err := (if e.memReadOk then [] else ["Error reading from pipe".toList]) ++ r.err }
  else
    { out := [], err := [], previous := m.memory_previous, record := m.memory_record,
      killed := false }

/-- The user-session step of the parent (lines 167-180). -/
def tickUser (cfg : Config) (e : TickEnv) : List Out :=
  if cfg.user then
    [Out.text "--------------------------------------------\n".toList,
     Out.text "### Sessions/users ###\n".toList] ++ e.users.map Out.text
  else []

/-- The CPU step of the parent (lines 182-190). -/
def tickCpu (cfg : Config) (i : Nat) (e : TickEnv) (m : Machine) : CpuOutputResult × List CStr :=
  if cfg.sys then
    (cpu_output cfg.graph i m.cpu_previous m.cpu_idle e.cpu m.cpu_record e.cores,
     if e.cpuReadOk then [] else ["Error reading from pipe".toList])
  else
    ({ out := [], cpu_previous := m.cpu_previous, time_previous := m.cpu_idle,
       record := m.cpu_record }, [])

/-- The end of the iteration (lines 191-196). -/
def tickFooter (cfg : Config) (i : Nat) : List Out :=
  if !cfg.seq && decide ((i : Int) + 1 < cfg.samples) then [Out.cursorRestore] else []

/-- The parent branch of an iteration once the three children are forked
(lines 144-197). -/
def tickParent (cfg : Config) (i : Nat) (e : TickEnv) (m : Machine) : TickResult :=
  let all := [Collector.memory, Collector.user, Collector.cpu]
  let mr := tickMemory cfg i e m
  if mr.killed then
    { machine := m, out := tickHeader cfg i ++ mr.out, err := mr.err, forked := all,
      slept := none, status := Status.killed }
  else
    let cr := tickCpu cfg i e m
    { machine :=
        { memory_record := mr.record, cpu_record := cr.1.record,
          cpu_previous := cr.1.cpu_previous, cpu_idle := cr.1.time_previous,
          memory_previous := mr.previous }
      out := tickHeader cfg i ++ mr.out ++ tickUser cfg e ++ cr.1.out ++ tickFooter cfg i
      err := mr.err ++ cr.2
      forked := all
      slept := if (i : Int) + 1 < cfg.samples then some cfg.delay else none
      status := Status.running }

/-- One iteration of the loop of `printinfo`, seen from the parent. -/
def tick (cfg : Config) (i : Nat) (e : TickEnv) (m : Machine) : TickResult :=
  if e.pipeOk = false then tickAbort m "Pipe creation failed" []
  else if e.forkMemoryOk = false then tickAbort m "Fork creation failed" []
  else if e.forkUserOk = false then tickAbort m "Fork creation failed" [Collector.memory]
  else if e.forkCpuOk = false then
    tickAbort m "Fork creation failed" [Collector.memory, Collector.user]
  else tickParent cfg i e m

/-- The parent process across iterations. -/
structure RunState where
  machine : Machine
  out : List Out
  err : List CStr
  forked : List Collector
  status : Status

/-- The state at the entry of the loop: both buffers zero-filled by `memset`,
`cpu_previous = 0`, `cpu_idle = 0`, and `memory_previous` holding whatever the
uninitialised variable holds (`mp0`). -/
def initState (cfg : Config) (mp0 : ℚ) : RunState :=
  { machine :=
      { memory_record := List.replicate cfg.samples.toNat []
        cpu_record := List.replicate cfg.samples.toNat []
        cpu_previous := 0, cpu_idle := 0, memory_previous := mp0 }
    out := [], err := [], forked := [], status := Status.running }

/-- The state after the loop body has been entered for `i = 0 .. n - 1`, or after
the process has ended in one of these iterations; `env i` is what iteration `i`
receives. -/
def runTicks (cfg : Config) (env : Nat → TickEnv) (mp0 : ℚ) : Nat → RunState
  | 0 => initState cfg mp0
  | n + 1 =>
    let s := runTicks cfg env mp0 n
    if s.status = Status.running then
      let r := tick cfg n (env n) s.machine
      { machine := r.machine, out := s.out ++ r.out, err := s.err ++ r.err,
        forked := s.forked ++ r.forked, status := r.status }
    else s

/-- The function `printinfo` once the two `sigaction` calls have succeeded: the loop
`for (int i = 0; i < samples; i++)`. -/
def printinfo (samples delay : Int) (seq sys user graph : Bool) (env : Nat → TickEnv)
    (mp0 : ℚ) : RunState :=
  runTicks { samples := samples, delay := delay, seq := seq, sys := sys, user := user,
             graph := graph } env mp0 samples.toNat

/-! ## The utilization formula as the specification words it -/

/-- The operation `clamp(x, lo, hi)` of the specification. -/
def spec_clamp (x lo hi : ℚ) : ℚ := max lo (min x hi)

/-- Utilization percent as written in the specification (section 4.3):
`clamp(|1000*(totald - idled)/(totald + ε) + 1| / 10, 0, 100)` with `ε = 1e-6`. -/
def spec_utilization (previous_cpu_total previous_cpu_idle total idle : Int) : ℚ :=
  let total_prev : ℚ := (previous_cpu_total : ℚ) + (previous_cpu_idle : ℚ)
  let total_cur : ℚ := (total : ℚ) + (idle : ℚ)
  let totald : ℚ := total_cur - total_prev
  let idled : ℚ := (idle : ℚ) - (previous_cpu_idle : ℚ)
  spec_clamp (|1000 * (totald - idled) / (totald + 1 / 1000000) + 1| / 10) 0 100

/-! ## Runs that are not cut short, and sample inputs -/

/-- Whether iteration `i` runs to its end under `e`: the pipes and the three forks
succeed and, when the memory step is executed, so does its `sysinfo` call. -/
def tickRuns (cfg : Config) (e : TickEnv) : Bool :=
  e.pipeOk && e.forkMemoryOk && e.forkUserOk && e.forkCpuOk && (!cfg.sys || e.sysinfoOk)

/-- A sample memory snapshot: 16 GB physical with `used` GB in use, 20 GB virtual
with 9 GB in use. -/
def sampleMemory (used : ℚ) : MemoryInfo :=
  { total_memory := 16, used_memory := used, total_virtual := 20, used_virtual := 9 }

/-- A sample environment in which nothing fails: used memory `used`, CPU snapshot
`(idle = 100, total = 500)`, no user session, four cores. -/
def sampleEnv (used : ℚ) : TickEnv :=
  { pipeOk := true, forkMemoryOk := true, forkUserOk := true, forkCpuOk := true,
    memReadOk := true, mem := sampleMemory used, sysinfoOk := true, maxrss := 2048,
    users := [], cpuReadOk := true, cpu := { time := 100, tot := 500 }, cores := 4 }

/-- A sample configuration: three samples, no delay, system statistics only. -/
def sampleConfig (seq graph : Bool) : Config :=
  { samples := 3, delay := 0, seq := seq, sys := true, user := false, graph := graph }

/-- Whether an output event is a tick-counter line. -/
def Out.isIteration : Out → Bool
  | .iteration _ => true
  | _ => false

/-- Whether an output event is one of the two cursor control sequences. -/
def Out.isCursor : Out → Bool
  | .cursorSave => true
  | .cursorRestore => true
  | _ => false

/-- An output event that is neither a tick-counter line nor a cursor control
sequence. -/
def Out.plain (o : Out) : Bool := !o.isIteration && !o.isCursor

/-- The number of newline characters that a list of output events puts on the
terminal. -/
def newlineCount (o : List Out) : Nat :=
  (o.map fun e => e.render.count '\n').sum

/-! ## Argument parsing (`isInteger`, statsfunc.c 206-220; `parseargument`, mySystemStats.c 28-74) -/

/-- The loop `while (*str)` of `isInteger`: false at the first character that
`isdigit` rejects, true at the terminator. -/
def isIntegerLoop : CStr → Bool
  | [] => true
  | c :: cs => if !c.isDigit then false else isIntegerLoop cs

/-- The function `isInteger`: false on the empty string, else the digit loop. -/
def isInteger (str : CStr) : Bool :=
  match str with
  | [] => false
  | _ :: _ => isIntegerLoop str

/-- What the documentation of `isInteger` in header.h calls a string that represents
an integer: digit characters only, potentially preceded by a sign `+` or `-`, the run
of digits being non-empty. -/
def representsInteger (s : CStr) : Bool :=
  match s with
  | '+' :: ds => !ds.isEmpty && ds.all Char.isDigit
  | '-' :: ds => !ds.isEmpty && ds.all Char.isDigit
  | ds => !ds.isEmpty && ds.all Char.isDigit

/-- The number that a string of decimal digits denotes. -/
def decimalValue (s : CStr) : Nat :=
  s.foldl (fun acc c => acc * 10 + (c.toNat - 48)) 0

/-- The test `isspace` of the C locale. -/
def isspace (c : Char) : Bool :=
  c = ' ' || c = '\t' || c = '\n' || c = Char.ofNat 11 || c = Char.ofNat 12 || c = '\r'

/-- The digit loop of `atoi`: stops at the first character that is not a digit. -/
def atoiDigits (acc : Int) : CStr → Int
  | [] => acc
  | c :: cs => if c.isDigit then atoiDigits (acc * 10 + ((c.toNat : Int) - 48)) cs else acc

/-- The library function `atoi`: white space, an optional sign, then digits.  (A value
outside the range of `int` is undefined in C; the model returns the number.) -/
def atoi (s : CStr) : Int :=
  match s.dropWhile isspace with
  | '-' :: ds => - atoiDigits 0 ds
  | '+' :: ds => atoiDigits 0 ds
  | ds => atoiDigits 0 ds

/-- What the call `strtok(argv[i], "=")` leaves behind when it finds a token. -/
structure StrtokResult where
  /-- The token returned. -/
  token : CStr
  /-- The string `argv[i]` after the call: the first `=` behind the token has been
  overwritten by a terminator. -/
  str : CStr
  /-- What the following call `strtok(NULL, "")` returns: the bytes behind the
  overwritten `=`, or `NULL` (`none`) when there are none. -/
  rest : Option CStr

/-- The library call `strtok(s, "=")`: leading `=` are skipped; `none` is the `NULL`
returned when nothing is left. -/
def strtok (s : CStr) : Option StrtokResult :=
  let lead := s.takeWhile (fun c => c = '=')
  let body := s.dropWhile (fun c => c = '=')
  if body = [] then none
  else
    let token := body.takeWhile (fun c => c ≠ '=')
    let after := (body.dropWhile (fun c => c ≠ '=')).drop 1
    some { token := token, str := lead ++ token,
           rest := if after = [] then none else some after }

/-- How a call of `parseargument` ends. -/
inductive ParseOutcome where
  /-- The function returned `ok`, the variables behind its pointers holding `vars`. -/
  | returned (ok : Bool) (vars : Config)
  /-- A `NULL` returned by `strtok` was passed to `strcmp` or `atoi`. -/
  | undefined
deriving DecidableEq

/-- The loop of `parseargument` over `argv[i], argv[i+1], ...`, with the flags `smple`
and `dely` and the variables behind the pointers, followed by the default
`if (! *sys && ! *user)`.  The flag `skip` tells that the previous iteration ran
`i += 1`, so that this argument is passed over. -/
def parseLoop : List CStr → Bool → Bool → Bool → Config → ParseOutcome
  | [], _, _, _, vars =>
    if !vars.sys && !vars.user then
      ParseOutcome.returned true { vars with user := true, sys := true }
    else ParseOutcome.returned true vars
  | _ :: args, true, smple, dely, vars => parseLoop args false smple dely vars
  | arg :: args, false, smple, dely, vars =>
    match strtok arg with
    | none => ParseOutcome.undefined
    | some t =>
      if t.token = "--samples".toList then
        match t.rest with
        | none => ParseOutcome.undefined
        | some v => parseLoop args false true dely { vars with samples := atoi v }
      else if t.token = "--tdelay".toList then
        match t.rest with
        | none => ParseOutcome.undefined
        | some v => parseLoop args false smple true { vars with delay := atoi v }
      else if t.str = "--system".toList then
        parseLoop args false smple dely { vars with sys := true }
      else if t.str = "--user".toList then
        parseLoop args false smple dely { vars with user := true }
      else if t.str = "--sequential".toList then
        parseLoop args false smple dely { vars with seq := true }
      else if t.str = "--graphics".toList then
        parseLoop args false smple dely { vars with graph := true }
      else if isInteger t.str && !args.isEmpty && isInteger (args.headD []) && !smple
          && !dely then
        parseLoop args true true true
          { vars with delay := atoi (args.headD []), samples := atoi t.str }
      else if isInteger t.str && !smple then
        parseLoop args false true dely { vars with samples := atoi t.str }
      else ParseOutcome.returned false vars

/-- The function `parseargument` on `argv[1] .. argv[argc-1]`, entered with the
variables behind its pointers holding `vars`. -/
def parseargument (argv : List CStr) (vars : Config) : ParseOutcome :=
  parseLoop argv false false false vars

/-- The values that `main` gives its variables before it calls `parseargument`. -/
def mainDefaults : Config :=
  { samples := 10, delay := 1, seq := false, sys := false, user := false, graph := false }

/-- How a call of `main` ends. -/
structure MainResult where
  /-- The run of `printinfo`, when it was called. -/
  run : Option RunState
  /-- What `main` itself printed before returning. -/
  out : List Out
  /-- The value returned by `main`, when it returns. -/
  code : Option Int

/-- The function `main` on `argv[1] .. argv[argc-1]`.  The printing done by
`systemInfo()` is the input `banner`; `none` stands for an outcome without a returned
value (undefined argument parsing, or a process ended inside `printinfo`). -/
def main (argv : List CStr) (env : Nat → TickEnv) (mp0 : ℚ) (banner : List Out) :
    MainResult :=
  match parseargument argv mainDefaults with
  | ParseOutcome.undefined => { run := none, out := [], code := none }
  | ParseOutcome.returned false _ =>
    { run := none, out := [Out.text "Incorrect argument\n".toList], code := some 1 }
  | ParseOutcome.returned true vars =>
    let r := printinfo vars.samples vars.delay vars.seq vars.sys vars.user vars.graph env mp0
    if r.status = Status.running then { run := some r, out := banner, code := some 0 }
    else { run := some r, out := [], code := none }

/-! ## The signal handler (`handle_sigint`, mySystemStats.c 4-25) -/

/-- The signal number `SIGINT` (Linux). -/
def SIGINT : Int := 2

/-- The signal number `SIGTSTP` (Linux). -/
def SIGTSTP : Int := 20

/-- The error number `EINTR` (Linux). -/
def EINTR : Int := 4

/-- The value of `EXIT_SUCCESS`. -/
def EXIT_SUCCESS : Int := 0

/-- The result of the call `scanf(" %c", &ans)` of the handler. -/
inductive ScanResult where
  /-- The call returned 1 and stored `ans`. -/
  | read (ans : Char)
  /-- The call did not return 1; `errno` is the value the handler then finds. -/
  | failed (errno : Int)
deriving DecidableEq

/-- What a call of `handle_sigint` leaves behind. -/
structure HandlerResult where
  out : List Out
  err : List CStr
  status : Status

/-- The function `handle_sigint`; `scan` is the result of its `scanf` call, which is
made only for `SIGINT`. -/
def handle_sigint (sig : Int) (scan : ScanResult) : HandlerResult :=
  if sig = SIGTSTP then { out := [], err := [], status := Status.running }
  else if sig = SIGINT then
    let prompt := Out.text "\nDo you want to quit? [y/n]: ".toList
    match scan with
    | ScanResult.failed errno =>
      if errno = EINTR then
        { out := [prompt, Out.text "\nSignal detected during input, resuming...\n".toList],
          err := [], status := Status.running }
      else
        { out := [prompt], err := ["Error reading input".toList],
          status := Status.exited EXIT_FAILURE }
    | ScanResult.read ans =>
      if ans = 'y' ∨ ans = 'Y' then
        { out := [prompt], err := [], status := Status.exited EXIT_SUCCESS }
      else { out := [prompt], err := [], status := Status.running }
  else { out := [], err := [], status := Status.running }

/-! ## The CPU collector (`cpuStats`, statsfunc.c 175-180) -/

/-- The snapshot that `cpuStats` writes to its pipe from the seven counters that
`fscanf` reads from the first line of `/proc/stat`. -/
def cpuStats (user nice system idle iowait irq softirq : Int) : CPU :=
  { tot := user + nice + system + iowait + irq + softirq, time := idle }

/-- A sample environment whose CPU counters grow from tick to tick. -/
def sampleCpuEnv (i : Nat) : TickEnv :=
  { sampleEnv 8 with
    cpu := cpuStats (300 + 20 * (i : Int)) 0 (200 + 10 * (i : Int)) (100 + 10 * (i : Int)) 0 0 0 }

/-- A non-empty string of decimal digits. -/
def digitString (s : CStr) : Bool := !s.isEmpty && s.all Char.isDigit

/-- The recognized forms of an argument as the specification lists them (section 6):
`--samples=N`, `--tdelay=N`, `--system`, `--user`, `--sequential`, `--graphics`, or a
string of decimal digits. -/
def recognizedForm (tok : CStr) : Bool :=
  ("--samples=".toList.isPrefixOf tok && digitString (tok.drop 10))
    || ("--tdelay=".toList.isPrefixOf tok && digitString (tok.drop 9))
    || tok = "--system".toList || tok = "--user".toList || tok = "--sequential".toList
    || tok = "--graphics".toList || digitString tok

/-- A sample configuration that asks for user sessions only. -/
def userOnlyConfig : Config :=
  { samples := 3, delay := 0, seq := false, sys := false, user := true, graph := false }

/-- A sample environment in which the `read` from `pipe_memory` returns -1; `mem` is
what the unfilled variable `info` then holds. -/
def failedReadEnv : TickEnv := { sampleEnv 8 with memReadOk := false }

/-! ## Theorems -/

/-- C1: for every retained pair and every current snapshot, the utilization that
`cpu_output` computes lies between 0 and 100. -/
theorem cpu_use_range (cpu_previous time_previous : Int) (info : CPU) :
    0 ≤ cpu_use cpu_previous time_previous info ∧
      cpu_use cpu_previous time_previous info ≤ 100 := by
  unfold cpu_use
  simp only
  split_ifs with h
  · exact ⟨by norm_num, le_refl _⟩
  · exact ⟨abs_nonneg _, not_lt.mp h⟩

theorem cpu_output_line (graphics : Bool) (i : Nat) (cpu_previous time_previous : Int)
    (info : CPU) (record : List CStr) (cores : Int) :
    Out.text ("CPU Usage: ".toList ++ fmt2 (cpu_use cpu_previous time_previous info)
        ++ "%\n".toList)
      ∈ (cpu_output graphics i cpu_previous time_previous info record cores).out := by
  unfold cpu_output
  exact List.mem_append_left _ (by simp only [List.mem_cons, true_or, or_true])

/-- C2: the utilization printed by `cpu_output` is the clamp formula of the
specification evaluated on the retained pair as it was before the call, and the
retained pair after the call is the current `(tot, time)` pair. -/
theorem cpu_output_refines_spec (graphics : Bool) (i : Nat) (cpu_previous time_previous : Int)
    (info : CPU) (record : List CStr) (cores : Int) :
    cpu_use cpu_previous time_previous info
        = spec_utilization cpu_previous time_previous info.tot info.time ∧
      Out.text ("CPU Usage: ".toList
          ++ fmt2 (spec_utilization cpu_previous time_previous info.tot info.time)
          ++ "%\n".toList)
        ∈ (cpu_output graphics i cpu_previous time_previous info record cores).out ∧
      (cpu_output graphics i cpu_previous time_previous info record cores).cpu_previous
        = info.tot ∧
      (cpu_output graphics i cpu_previous time_previous info record cores).time_previous
        = info.time := by
  have key : cpu_use cpu_previous time_previous info
      = spec_utilization cpu_previous time_previous info.tot info.time := by
    unfold cpu_use spec_utilization spec_clamp totald idled epsilon
    simp only [Int.cast_add]
    rw [abs_div, abs_of_pos (by norm_num : (0 : ℚ) < 10)]
    rw [add_comm (info.time : ℚ) (info.tot : ℚ)]
    split_ifs with h
    · rw [min_eq_right (le_of_lt h), max_eq_right (by norm_num)]
    · rw [min_eq_left (not_lt.mp h), max_eq_right (div_nonneg (abs_nonneg _) (by norm_num))]
  refine ⟨key, ?_, ?_, ?_⟩
  · rw [← key]
    exact cpu_output_line graphics i cpu_previous time_previous info record cores
  · unfold cpu_output; rfl
  · unfold cpu_output; rfl

/-! ### The shape of an iteration that runs to its end -/

theorem tickMemory_killed (cfg : Config) (i : Nat) (e : TickEnv) (m : Machine)
    (h : tickRuns cfg e = true) : (tickMemory cfg i e m).killed = false := by
  unfold tickMemory
  by_cases hs : cfg.sys = true
  · have hok : e.sysinfoOk = true := by
      simp only [tickRuns, hs, Bool.not_true, Bool.false_or, Bool.and_eq_true] at h
      exact h.2
    rw [if_pos hs]
    unfold memoryUsage
    rw [if_neg (by rw [hok]; exact Bool.noConfusion)]
  · rw [if_neg hs]

theorem tick_eq_tickParent (cfg : Config) (i : Nat) (e : TickEnv) (m : Machine)
    (h : tickRuns cfg e = true) : tick cfg i e m = tickParent cfg i e m := by
  simp only [tickRuns, Bool.and_eq_true] at h
  obtain ⟨⟨⟨⟨h1, h2⟩, h3⟩, h4⟩, _⟩ := h
  unfold tick
  rw [if_neg (by rw [h1]; exact Bool.noConfusion), if_neg (by rw [h2]; exact Bool.noConfusion),
    if_neg (by rw [h3]; exact Bool.noConfusion), if_neg (by rw [h4]; exact Bool.noConfusion)]

theorem tick_out_of_runs (cfg : Config) (i : Nat) (e : TickEnv) (m : Machine)
    (h : tickRuns cfg e = true) :
    (tick cfg i e m).out = tickHeader cfg i ++ (tickMemory cfg i e m).out ++ tickUser cfg e
      ++ (tickCpu cfg i e m).1.out ++ tickFooter cfg i := by
  rw [tick_eq_tickParent cfg i e m h]
  unfold tickParent
  simp only [tickMemory_killed cfg i e m h, Bool.false_eq_true, if_false]

theorem tick_status_of_runs (cfg : Config) (i : Nat) (e : TickEnv) (m : Machine)
    (h : tickRuns cfg e = true) : (tick cfg i e m).status = Status.running := by
  rw [tick_eq_tickParent cfg i e m h]
  unfold tickParent
  simp only [tickMemory_killed cfg i e m h, Bool.false_eq_true, if_false]

theorem tick_machine_of_runs (cfg : Config) (i : Nat) (e : TickEnv) (m : Machine)
    (h : tickRuns cfg e = true) :
    (tick cfg i e m).machine =
      { memory_record := (tickMemory cfg i e m).record
        cpu_record := (tickCpu cfg i e m).1.record
        cpu_previous := (tickCpu cfg i e m).1.cpu_previous
        cpu_idle := (tickCpu cfg i e m).1.time_previous
        memory_previous := (tickMemory cfg i e m).previous } := by
  rw [tick_eq_tickParent cfg i e m h]
  unfold tickParent
  simp only [tickMemory_killed cfg i e m h, Bool.false_eq_true, if_false]

theorem memoryUsage_previous_ok (samples : Int) (i : Nat) (info : MemoryInfo) (graph seq : Bool)
    (previous : ℚ) (record : List CStr) (maxrss : Int) :
    (memoryUsage samples i info graph seq previous record maxrss true).previous
      = if graph = true then info.used_memory else previous := by
  unfold memoryUsage
  rw [if_neg Bool.noConfusion]
  cases graph
  · simp only [Bool.false_eq_true, if_false]
  · simp only [if_true, appendMemoryGraphicToTail]

/-- C3, as stated, fails: with graphics disabled `memoryUsage` leaves the retained
value as it was (here 0 while the tick's used memory is 8). -/
theorem memoryUsage_previous_counterexample :
    ¬ ((memoryUsage 3 0 (sampleMemory 8) false false 0 [[], [], []] 2048 true).previous
        = (sampleMemory 8).used_memory) := by
  rw [memoryUsage_previous_ok]
  norm_num [sampleMemory]

/-- C3, amended: when the memory step of a tick runs to its end, the retained
previous used memory equals that tick's used memory if graphics is enabled, and is
left as it was if graphics is disabled. -/
theorem memory_previous_after_tick (cfg : Config) (i : Nat) (e : TickEnv) (m : Machine)
    (hsys : cfg.sys = true) (hrun : tickRuns cfg e = true) :
    (tick cfg i e m).machine.memory_previous
        = (if cfg.graph = true then e.mem.used_memory else m.memory_previous) ∧
      (memoryUsage cfg.samples i e.mem cfg.graph cfg.seq m.memory_previous m.memory_record
          e.maxrss e.sysinfoOk).previous
        = (if cfg.graph = true then e.mem.used_memory else m.memory_previous) := by
  have hok : e.sysinfoOk = true := by
    simp only [tickRuns, hsys, Bool.not_true, Bool.false_or, Bool.and_eq_true] at hrun
    exact hrun.2
  rw [tick_machine_of_runs cfg i e m hrun]
  simp only [tickMemory, hsys, if_true, hok, memoryUsage_previous_ok, and_self]

/-- Witness of C3 (amended) on the first tick of a run with and without graphics. -/
theorem memory_previous_after_tick_witness :
    (tick (sampleConfig true true) 0 (sampleEnv 8)
        (initState (sampleConfig true true) 0).machine).machine.memory_previous = 8 ∧
      (tick (sampleConfig true false) 0 (sampleEnv 8)
        (initState (sampleConfig true false) 0).machine).machine.memory_previous = 0 := by
  refine ⟨?_, ?_⟩
  · exact (memory_previous_after_tick (sampleConfig true true) 0 (sampleEnv 8)
      (initState (sampleConfig true true) 0).machine rfl rfl).1
  · exact (memory_previous_after_tick (sampleConfig true false) 0 (sampleEnv 8)
      (initState (sampleConfig true false) 0).machine rfl rfl).1

/-! ### The memory graphic -/

theorem truncToInt_of_nonneg (q : ℚ) (h : 0 ≤ q) : (truncToInt q).toNat = ⌊q⌋₊ := by
  unfold truncToInt
  rw [if_pos h, Int.floor_toNat]

theorem memory_graphic_row_of_room (row : CStr) (c p : ℚ) (i : Nat)
    (hroom : row.length + ⌊memory_abs_diff c p i / (1 / 100)⌋₊ + 6 < 1023) :
    memory_graphic_row row c p i
      = row ++ List.replicate ⌊memory_abs_diff c p i / (1 / 100)⌋₊ (memory_sign c p i)
          ++ [memory_last_char c p i]
          ++ (memory_suffix (memory_abs_diff c p i) c).take
              (1022 - row.length - ⌊memory_abs_diff c p i / (1 / 100)⌋₊) := by
  have hq : (0 : ℚ) ≤ memory_abs_diff c p i / (1 / 100) :=
    div_nonneg (abs_nonneg _) (by norm_num)
  have hvl : (visual_len c p i).toNat = ⌊memory_abs_diff c p i / (1 / 100)⌋₊ :=
    truncToInt_of_nonneg _ hq
  unfold memory_graphic_row
  simp only [hvl]
  rw [if_pos hroom, min_eq_left (by omega)]
  congr 2
  omega

/-- C4: on the first iteration `appendMemoryGraphicToTail` seeds the previous value
with the current one, whatever it held: the difference and its absolute value are 0,
the glyph run is empty, the marker is `o`, and the row (when it has room for the
marker) gets `o` and the text of `abs_diff = 0`. -/
theorem first_tick_memory_graphic (memory_current memory_previous : ℚ) (record : List CStr) :
    seedPrevious memory_current memory_previous 0 = memory_current ∧
      memory_diff memory_current memory_previous 0 = 0 ∧
      memory_abs_diff memory_current memory_previous 0 = 0 ∧
      visual_len memory_current memory_previous 0 = 0 ∧
      memory_last_char memory_current memory_previous 0 = 'o' ∧
      (appendMemoryGraphicToTail memory_current memory_previous 0 record).1 = memory_current ∧
      (appendMemoryGraphicToTail memory_current memory_previous 0 record).2
        = record.set 0
            (if (getRow record 0).length + 6 < 1023 then
              getRow record 0 ++ ['o']
                ++ (memory_suffix 0 memory_current).take (1022 - (getRow record 0).length)
             else getRow record 0) := by
  have hseed : seedPrevious memory_current memory_previous 0 = memory_current := by
    unfold seedPrevious
    rw [if_pos rfl]
  have hdiff : memory_diff memory_current memory_previous 0 = 0 := by
    unfold memory_diff
    rw [hseed, sub_self]
  have habs : memory_abs_diff memory_current memory_previous 0 = 0 := by
    unfold memory_abs_diff
    rw [hdiff, abs_zero]
  have hvl : visual_len memory_current memory_previous 0 = 0 := by
    unfold visual_len truncToInt
    rw [habs, zero_div, if_pos (le_refl _), Int.floor_zero]
  have hlast : memory_last_char memory_current memory_previous 0 = 'o' := by
    unfold memory_last_char
    rw [hdiff, if_pos (le_refl _), hvl, if_pos rfl]
  refine ⟨hseed, hdiff, habs, hvl, hlast, rfl, ?_⟩
  unfold appendMemoryGraphicToTail memory_graphic_row
  simp only [hvl, hlast, habs, Int.toNat_zero, Nat.zero_min, List.replicate_zero,
    List.append_nil, add_zero, Nat.sub_zero]
  have hsz : 1024 - (getRow record 0).length - 1 - 1 = 1022 - (getRow record 0).length := by
    omega
  rw [hsz]

/-- C5: at an iteration `i ≥ 1`, with previous value `p`, current value `c` and
`n = ⌊|c - p| / 0.01⌋`, when the row has room (`strlen(row) + n + 6 < 1023`), the row
gets `n` glyphs (`#` for `c - p ≥ 0`, `:` for `c - p < 0`), then one marker (`*` for a
non-negative difference with `n > 0`, `o` for a non-negative difference with `n = 0`,
`@` for a negative difference), then the text of `abs_diff` and `c`; the retained
value becomes `c`. -/
theorem memory_graphic_run (i : Nat) (p c : ℚ) (record : List CStr) (hi : 1 ≤ i)
    (hroom : (getRow record i).length + ⌊|c - p| / (1 / 100)⌋₊ + 6 < 1023) :
    (appendMemoryGraphicToTail c p i record).2
        = record.set i
            (getRow record i
              ++ List.replicate ⌊|c - p| / (1 / 100)⌋₊ (if c - p ≥ 0 then '#' else ':')
              ++ [if c - p ≥ 0 then (if ⌊|c - p| / (1 / 100)⌋₊ = 0 then 'o' else '*') else '@']
              ++ (memory_suffix |c - p| c).take
                  (1022 - (getRow record i).length - ⌊|c - p| / (1 / 100)⌋₊)) ∧
      (appendMemoryGraphicToTail c p i record).1 = c := by
  have hne : i ≠ 0 := by omega
  have hdiff : memory_diff c p i = c - p := by
    unfold memory_diff seedPrevious
    rw [if_neg hne]
  have habs : memory_abs_diff c p i = |c - p| := by
    unfold memory_abs_diff
    rw [hdiff]
  have hq : (0 : ℚ) ≤ |c - p| / (1 / 100) := div_nonneg (abs_nonneg _) (by norm_num)
  have hvl : visual_len c p i = (⌊|c - p| / (1 / 100)⌋₊ : Int) := by
    unfold visual_len truncToInt
    rw [habs, if_pos hq, Int.natCast_floor_eq_floor hq]
  have hsign : memory_sign c p i = (if c - p ≥ 0 then '#' else ':') := by
    unfold memory_sign
    rw [hdiff]
  have hlast : memory_last_char c p i
      = (if c - p ≥ 0 then (if ⌊|c - p| / (1 / 100)⌋₊ = 0 then 'o' else '*') else '@') := by
    unfold memory_last_char
    rw [hdiff, hvl]
    simp only [Nat.cast_eq_zero]
  refine ⟨?_, rfl⟩
  unfold appendMemoryGraphicToTail
  rw [memory_graphic_row_of_room _ c p i (by rw [habs]; exact hroom), habs, hsign, hlast]

/-- Witness of C5: used memory going 8.00 to 8.05 at tick 1 appends five `#` and the
increase marker `*` to the row. -/
theorem memory_graphic_run_witness :
    (appendMemoryGraphicToTail (161 / 20) 8 1
        [[], "8.05 GB / 16.00 GB -- 9.00 GB/ 20.00 GB\t|".toList]).2
      = [[], "8.05 GB / 16.00 GB -- 9.00 GB/ 20.00 GB\t|".toList
          ++ List.replicate 5 '#' ++ ['*']
          ++ (memory_suffix (1 / 20) (161 / 20)).take 976] := by
  have hd : |(161 / 20 : ℚ) - 8| = 1 / 20 := by
    rw [abs_of_nonneg (by norm_num)]
    norm_num
  have hn : ⌊|(161 / 20 : ℚ) - 8| / (1 / 100)⌋₊ = 5 := by
    rw [hd, Nat.floor_eq_iff (by norm_num)]
    norm_num
  have hpos : (161 / 20 : ℚ) - 8 ≥ 0 := by norm_num
  have h := (memory_graphic_run 1 8 (161 / 20)
    [[], "8.05 GB / 16.00 GB -- 9.00 GB/ 20.00 GB\t|".toList] (le_refl 1)
    (by rw [hn]; decide)).1
  rw [hn, hd, if_pos hpos, if_pos hpos, if_neg (by decide)] at h
  exact h

/-! ### Runs -/

theorem runTicks_succ_of_running (cfg : Config) (env : Nat → TickEnv) (mp0 : ℚ) (n : Nat)
    (h : (runTicks cfg env mp0 n).status = Status.running) :
    runTicks cfg env mp0 (n + 1)
      = { machine := (tick cfg n (env n) (runTicks cfg env mp0 n).machine).machine
          out := (runTicks cfg env mp0 n).out
            ++ (tick cfg n (env n) (runTicks cfg env mp0 n).machine).out
          err := (runTicks cfg env mp0 n).err
            ++ (tick cfg n (env n) (runTicks cfg env mp0 n).machine).err
          forked := (runTicks cfg env mp0 n).forked
            ++ (tick cfg n (env n) (runTicks cfg env mp0 n).machine).forked
          status := (tick cfg n (env n) (runTicks cfg env mp0 n).machine).status } := by
  conv_lhs => unfold runTicks
  simp only [h, if_true]

theorem runTicks_running (cfg : Config) (env : Nat → TickEnv) (mp0 : ℚ) (n : Nat)
    (hrun : ∀ i, i < n → tickRuns cfg (env i) = true) :
    (runTicks cfg env mp0 n).status = Status.running := by
  induction n with
  | zero => rfl
  | succ k ih =>
    have hk := ih (fun i hi => hrun i (Nat.lt_succ_of_lt hi))
    rw [runTicks_succ_of_running cfg env mp0 k hk]
    exact tick_status_of_runs cfg k (env k) _ (hrun k (Nat.lt_succ_self k))

theorem runTicks_machine_succ (cfg : Config) (env : Nat → TickEnv) (mp0 : ℚ) (n : Nat)
    (hrun : ∀ i, i < n → tickRuns cfg (env i) = true) :
    (runTicks cfg env mp0 (n + 1)).machine
      = (tick cfg n (env n) (runTicks cfg env mp0 n).machine).machine := by
  rw [runTicks_succ_of_running cfg env mp0 n (runTicks_running cfg env mp0 n hrun)]

theorem runTicks_out_succ (cfg : Config) (env : Nat → TickEnv) (mp0 : ℚ) (n : Nat)
    (hrun : ∀ i, i < n → tickRuns cfg (env i) = true) :
    (runTicks cfg env mp0 (n + 1)).out
      = (runTicks cfg env mp0 n).out
          ++ (tick cfg n (env n) (runTicks cfg env mp0 n).machine).out := by
  rw [runTicks_succ_of_running cfg env mp0 n (runTicks_running cfg env mp0 n hrun)]

theorem tick_cpu_state (cfg : Config) (i : Nat) (e : TickEnv) (m : Machine)
    (hsys : cfg.sys = true) (hrun : tickRuns cfg e = true) :
    (tick cfg i e m).machine.cpu_previous = e.cpu.tot ∧
      (tick cfg i e m).machine.cpu_idle = e.cpu.time := by
  rw [tick_machine_of_runs cfg i e m hrun]
  simp only [tickCpu, hsys, if_true]
  exact ⟨rfl, rfl⟩

theorem cpu_use_of_same_snapshot (c : CPU) :
    totald c.tot c.time c = 0 ∧ idled c.time c = 0 ∧ cpu_use c.tot c.time c = 1 / 10 := by
  have ht : totald c.tot c.time c = 0 := by
    unfold totald
    simp only [Int.cast_add]
    ring
  have hi : idled c.time c = 0 := by
    unfold idled
    ring
  refine ⟨ht, hi, ?_⟩
  unfold cpu_use
  simp only [ht, hi]
  norm_num [epsilon, abs_of_pos]

/-- C6: when the CPU snapshot is the same at every tick and the run starts from the
zero retained pair, at every tick after the first `totald` and `idled` are both 0 and
the utilization computed and printed is 0.1. -/
theorem constant_cpu_stable (cfg : Config) (env : Nat → TickEnv) (mp0 : ℚ) (c : CPU)
    (n : Nat) (hsys : cfg.sys = true) (hn : 1 ≤ n)
    (hrun : ∀ i, i ≤ n → tickRuns cfg (env i) = true)
    (hc : ∀ i, i ≤ n → (env i).cpu = c) :
    totald (runTicks cfg env mp0 n).machine.cpu_previous
        (runTicks cfg env mp0 n).machine.cpu_idle c = 0 ∧
      idled (runTicks cfg env mp0 n).machine.cpu_idle c = 0 ∧
      cpu_use (runTicks cfg env mp0 n).machine.cpu_previous
        (runTicks cfg env mp0 n).machine.cpu_idle c = 1 / 10 ∧
      Out.text ("CPU Usage: ".toList ++ fmt2 (1 / 10) ++ "%\n".toList)
        ∈ (tick cfg n (env n) (runTicks cfg env mp0 n).machine).out := by
  obtain ⟨k, rfl⟩ : ∃ k, n = k + 1 := ⟨n - 1, by omega⟩
  have hrunk : ∀ i, i < k → tickRuns cfg (env i) = true := fun i hi => hrun i (by omega)
  have hst := tick_cpu_state cfg k (env k) (runTicks cfg env mp0 k).machine hsys
    (hrun k (by omega))
  rw [← runTicks_machine_succ cfg env mp0 k hrunk, hc k (by omega)] at hst
  rw [hst.1, hst.2]
  obtain ⟨h1, h2, h3⟩ := cpu_use_of_same_snapshot c
  refine ⟨h1, h2, h3, ?_⟩
  rw [tick_out_of_runs cfg (k + 1) (env (k + 1)) _ (hrun (k + 1) (le_refl _))]
  apply List.mem_append_left
  apply List.mem_append_right
  simp only [tickCpu, hsys, if_true, hc (k + 1) (le_refl _)]
  rw [hst.1, hst.2, ← h3]
  exact (cpu_output_line cfg.graph (k + 1) c.tot c.time c _ _)

/-- Witness of C6: with `(idle = 100, total = 500)` at every tick of a three-sample
run, ticks 2 and 3 both compute 0.1. -/
theorem constant_cpu_stable_witness :
    cpu_use (runTicks (sampleConfig true false) (fun _ => sampleEnv 8) 0 1).machine.cpu_previous
        (runTicks (sampleConfig true false) (fun _ => sampleEnv 8) 0 1).machine.cpu_idle
        { time := 100, tot := 500 } = 1 / 10 ∧
      cpu_use (runTicks (sampleConfig true false) (fun _ => sampleEnv 8) 0 2).machine.cpu_previous
        (runTicks (sampleConfig true false) (fun _ => sampleEnv 8) 0 2).machine.cpu_idle
        { time := 100, tot := 500 } = 1 / 10 :=
  ⟨(constant_cpu_stable (sampleConfig true false) (fun _ => sampleEnv 8) 0
      { time := 100, tot := 500 } 1 rfl (le_refl 1) (fun _ _ => rfl) (fun _ _ => rfl)).2.2.1,
   (constant_cpu_stable (sampleConfig true false) (fun _ => sampleEnv 8) 0
      { time := 100, tot := 500 } 2 rfl (by decide) (fun _ _ => rfl) (fun _ _ => rfl)).2.2.1⟩

/-! ### Which events an iteration prints -/

theorem memoryUsage_out_plain (samples : Int) (i : Nat) (info : MemoryInfo) (graph seq : Bool)
    (previous : ℚ) (record : List CStr) (maxrss : Int) (sysinfoOk : Bool) :
    ∀ o ∈ (memoryUsage samples i info graph seq previous record maxrss sysinfoOk).out,
      o.plain = true := by
  intro o ho
  cases sysinfoOk
  · exact absurd ho (List.not_mem_nil o)
  · change o ∈ [_, _, _] ++ memory_print_rows i seq _ ++ memory_padding samples i at ho
    simp only [List.mem_append, List.mem_cons, List.mem_singleton, List.not_mem_nil,
      or_false] at ho
    rcases ho with ((h1 | h1 | h1) | h1) | h1
    · rw [h1]; rfl
    · rw [h1]; rfl
    · rw [h1]; rfl
    · unfold memory_print_rows at h1
      rw [List.mem_map] at h1
      obtain ⟨j, _, rfl⟩ := h1
      split_ifs <;> rfl
    · unfold memory_padding at h1
      rw [(List.mem_replicate.mp h1).2]
      rfl

theorem tickMemory_out (cfg : Config) (i : Nat) (e : TickEnv) (m : Machine) :
    (tickMemory cfg i e m).out
      = if cfg.sys = true then
          (memoryUsage cfg.samples i e.mem cfg.graph cfg.seq m.memory_previous m.memory_record
            e.maxrss e.sysinfoOk).out
        else [] := by
  unfold tickMemory
  split_ifs <;> rfl

theorem tickMemory_out_plain (cfg : Config) (i : Nat) (e : TickEnv) (m : Machine) :
    ∀ o ∈ (tickMemory cfg i e m).out, o.plain = true := by
  intro o ho
  rw [tickMemory_out] at ho
  split_ifs at ho
  · exact memoryUsage_out_plain _ _ _ _ _ _ _ _ _ o ho
  · exact absurd ho (List.not_mem_nil o)

theorem tickUser_plain (cfg : Config) (e : TickEnv) : ∀ o ∈ tickUser cfg e, o.plain = true := by
  intro o ho
  unfold tickUser at ho
  split_ifs at ho
  · simp only [List.mem_append, List.mem_cons, List.mem_singleton, List.not_mem_nil,
      or_false, List.mem_map] at ho
    rcases ho with (h1 | h1) | ⟨u, _, h1⟩
    · rw [h1]; rfl
    · rw [h1]; rfl
    · rw [← h1]; rfl
  · exact absurd ho (List.not_mem_nil o)

theorem cpu_output_out (graphics : Bool) (i : Nat) (cpu_previous time_previous : Int)
    (info : CPU) (record : List CStr) (cores : Int) :
    (cpu_output graphics i cpu_previous time_previous info record cores).out
      = [Out.text "--------------------------------------------\n".toList,
         Out.text ("Number of Cores: ".toList ++ fmtInt cores ++ "\n".toList),
         Out.text ("CPU Usage: ".toList ++ fmt2 (cpu_use cpu_previous time_previous info)
            ++ "%\n".toList)]
        ++ (if graphics = true then
              (appendAndPrintCpuGraphics (cpu_use cpu_previous time_previous info) i record).1
            else []) := by
  unfold cpu_output
  cases graphics <;> rfl

theorem cpu_output_out_plain (graphics : Bool) (i : Nat) (cpu_previous time_previous : Int)
    (info : CPU) (record : List CStr) (cores : Int) :
    ∀ o ∈ (cpu_output graphics i cpu_previous time_previous info record cores).out,
      o.plain = true := by
  intro o ho
  rw [cpu_output_out] at ho
  simp only [List.mem_append, List.mem_cons, List.mem_singleton, List.not_mem_nil,
    or_false] at ho
  rcases ho with (h1 | h1 | h1) | h1
  · rw [h1]; rfl
  · rw [h1]; rfl
  · rw [h1]; rfl
  · split_ifs at h1
    · unfold appendAndPrintCpuGraphics at h1
      simp only [List.mem_map] at h1
      obtain ⟨j, _, rfl⟩ := h1
      rfl
    · exact absurd h1 (List.not_mem_nil o)

theorem tickCpu_out (cfg : Config) (i : Nat) (e : TickEnv) (m : Machine) :
    (tickCpu cfg i e m).1.out
      = if cfg.sys = true then
          (cpu_output cfg.graph i m.cpu_previous m.cpu_idle e.cpu m.cpu_record e.cores).out
        else [] := by
  unfold tickCpu
  split_ifs <;> rfl

theorem tickCpu_out_plain (cfg : Config) (i : Nat) (e : TickEnv) (m : Machine) :
    ∀ o ∈ (tickCpu cfg i e m).1.out, o.plain = true := by
  intro o ho
  rw [tickCpu_out] at ho
  split_ifs at ho
  · exact cpu_output_out_plain _ _ _ _ _ _ _ o ho
  · exact absurd ho (List.not_mem_nil o)

theorem tick_out_mem_parts (cfg : Config) (i : Nat) (e : TickEnv) (m : Machine) (o : Out)
    (ho : o ∈ (tick cfg i e m).out) :
    o ∈ tickHeader cfg i ∨ o ∈ (tickMemory cfg i e m).out ∨ o ∈ tickUser cfg e ∨
      o ∈ (tickCpu cfg i e m).1.out ∨ o ∈ tickFooter cfg i := by
  unfold tick at ho
  split_ifs at ho
  · exact absurd ho (List.not_mem_nil o)
  · exact absurd ho (List.not_mem_nil o)
  · exact absurd ho (List.not_mem_nil o)
  · exact absurd ho (List.not_mem_nil o)
  · unfold tickParent at ho
    by_cases hk : (tickMemory cfg i e m).killed = true
    · simp only [hk, if_true, List.mem_append] at ho
      rcases ho with h1 | h1
      · exact Or.inl h1
      · exact Or.inr (Or.inl h1)
    · rw [Bool.not_eq_true] at hk
      simp only [hk, Bool.false_eq_true, if_false, List.mem_append] at ho
      rcases ho with (((h1 | h1) | h1) | h1) | h1
      · exact Or.inl h1
      · exact Or.inr (Or.inl h1)
      · exact Or.inr (Or.inr (Or.inl h1))
      · exact Or.inr (Or.inr (Or.inr (Or.inl h1)))
      · exact Or.inr (Or.inr (Or.inr (Or.inr h1)))

theorem tick_out_mem (cfg : Config) (i : Nat) (e : TickEnv) (m : Machine) (o : Out)
    (ho : o ∈ (tick cfg i e m).out) :
    o ∈ tickHeader cfg i ∨ o.plain = true ∨ o ∈ tickFooter cfg i := by
  rcases tick_out_mem_parts cfg i e m o ho with h | h | h | h | h
  · exact Or.inl h
  · exact Or.inr (Or.inl (tickMemory_out_plain cfg i e m o h))
  · exact Or.inr (Or.inl (tickUser_plain cfg e o h))
  · exact Or.inr (Or.inl (tickCpu_out_plain cfg i e m o h))
  · exact Or.inr (Or.inr h)

theorem plain_not_cursor (o : Out) (h : o.plain = true) : o.isCursor = false := by
  cases o <;> first | rfl | exact absurd h Bool.noConfusion

theorem plain_not_iteration (o : Out) (h : o.plain = true) : o.isIteration = false := by
  cases o <;> first | rfl | exact absurd h Bool.noConfusion

theorem tick_out_no_cursor (cfg : Config) (i : Nat) (e : TickEnv) (m : Machine)
    (hseq : cfg.seq = true) : ∀ o ∈ (tick cfg i e m).out, o.isCursor = false := by
  intro o ho
  rcases tick_out_mem cfg i e m o ho with h | h | h
  · unfold tickHeader at h
    simp only [hseq, Bool.not_true, Bool.false_eq_true, if_false, List.mem_cons,
      List.mem_singleton, List.not_mem_nil, or_false] at h
    rcases h with h | h <;> rw [h] <;> rfl
  · exact plain_not_cursor o h
  · unfold tickFooter at h
    simp only [hseq, Bool.not_true, Bool.false_and, Bool.false_eq_true, if_false,
      List.not_mem_nil] at h

theorem tick_out_no_iteration (cfg : Config) (i : Nat) (e : TickEnv) (m : Machine)
    (hseq : cfg.seq = false) : ∀ o ∈ (tick cfg i e m).out, o.isIteration = false := by
  intro o ho
  rcases tick_out_mem cfg i e m o ho with h | h | h
  · unfold tickHeader at h
    simp only [hseq, Bool.not_false, if_true, List.mem_cons, List.mem_singleton,
      List.not_mem_nil, or_false] at h
    rcases h with h | h <;> rw [h] <;> rfl
  · exact plain_not_iteration o h
  · unfold tickFooter at h
    split_ifs at h
    · rw [List.mem_singleton.mp h]; rfl
    · exact absurd h (List.not_mem_nil o)

theorem runTicks_out_forall (cfg : Config) (env : Nat → TickEnv) (mp0 : ℚ) (P : Out → Prop)
    (hP : ∀ i m, ∀ o ∈ (tick cfg i (env i) m).out, P o) :
    ∀ n, ∀ o ∈ (runTicks cfg env mp0 n).out, P o := by
  intro n
  induction n with
  | zero => intro o ho; exact absurd ho (List.not_mem_nil o)
  | succ k ih =>
    intro o ho
    by_cases hs : (runTicks cfg env mp0 k).status = Status.running
    · rw [runTicks_succ_of_running cfg env mp0 k hs] at ho
      rcases List.mem_append.mp ho with h | h
      · exact ih o h
      · exact hP k _ o h
    · have heq : runTicks cfg env mp0 (k + 1) = runTicks cfg env mp0 k := by
        conv_lhs => unfold runTicks
        simp only [hs, if_false]
      rw [heq] at ho
      exact ih o ho

theorem tick_out_sequential (cfg : Config) (i : Nat) (e : TickEnv) (m : Machine)
    (hseq : cfg.seq = true) (hrun : tickRuns cfg e = true) :
    (tick cfg i e m).out = Out.iteration ((i : Int) + 1) :: (tick cfg i e m).out.tail ∧
      ∀ o ∈ (tick cfg i e m).out.tail, o.plain = true := by
  have hout := tick_out_of_runs cfg i e m hrun
  have hh : tickHeader cfg i = [Out.iteration ((i : Int) + 1),
      Out.text ("Number of samples: ".toList ++ fmtInt cfg.samples ++ " -- every ".toList
        ++ fmtInt cfg.delay ++ " secs\n".toList)] := by
    unfold tickHeader
    simp only [hseq, Bool.not_true, Bool.false_eq_true, if_false]
  have hf : tickFooter cfg i = [] := by
    unfold tickFooter
    simp only [hseq, Bool.not_true, Bool.false_and, Bool.false_eq_true, if_false]
  rw [hh, hf] at hout
  have htail : (tick cfg i e m).out.tail
      = [Out.text ("Number of samples: ".toList ++ fmtInt cfg.samples ++ " -- every ".toList
          ++ fmtInt cfg.delay ++ " secs\n".toList)]
        ++ (tickMemory cfg i e m).out ++ tickUser cfg e ++ (tickCpu cfg i e m).1.out := by
    rw [hout]
    simp only [List.cons_append, List.tail_cons, List.append_nil, List.nil_append]
  refine ⟨?_, ?_⟩
  · rw [htail, hout]
    simp only [List.cons_append, List.append_nil, List.nil_append]
  intro o ho
  rw [htail] at ho
  simp only [List.mem_append, List.mem_singleton] at ho
  rcases ho with ((h | h) | h) | h
  · rw [h]; rfl
  · exact tickMemory_out_plain cfg i e m o h
  · exact tickUser_plain cfg e o h
  · exact tickCpu_out_plain cfg i e m o h

/-- C7: in sequential mode a run whose `samples` iterations all run to their end
prints exactly the tick headers `>>> iteration 1` .. `>>> iteration samples`, in this
order, each one first in its tick's output, and (in any run) no cursor control
sequence; in refresh mode no run prints a tick-counter line. -/
theorem sequential_headers (cfg : Config) (env : Nat → TickEnv) (mp0 : ℚ) :
    (cfg.seq = true → (∀ i, i < cfg.samples.toNat → tickRuns cfg (env i) = true) →
      ∃ lines : Nat → List Out,
        (printinfo cfg.samples cfg.delay cfg.seq cfg.sys cfg.user cfg.graph env mp0).out
          = (List.range cfg.samples.toNat).flatMap
              (fun i => Out.iteration ((i : Int) + 1) :: lines i) ∧
        ∀ i, ∀ o ∈ lines i, o.plain = true) ∧
      (cfg.seq = true →
        ∀ o ∈ (printinfo cfg.samples cfg.delay cfg.seq cfg.sys cfg.user cfg.graph env mp0).out,
          o.isCursor = false) ∧
      (cfg.seq = false →
        ∀ o ∈ (printinfo cfg.samples cfg.delay cfg.seq cfg.sys cfg.user cfg.graph env mp0).out,
          o.isIteration = false) := by
  have hp : printinfo cfg.samples cfg.delay cfg.seq cfg.sys cfg.user cfg.graph env mp0
      = runTicks cfg env mp0 cfg.samples.toNat := rfl
  rw [hp]
  refine ⟨?_, ?_, ?_⟩
  · intro hseq hrun
    refine ⟨fun i => if tickRuns cfg (env i) = true then
      (tick cfg i (env i) (runTicks cfg env mp0 i).machine).out.tail else [], ?_, ?_⟩
    · generalize cfg.samples.toNat = n at hrun
      induction n with
      | zero => rfl
      | succ k ih =>
        have hk : ∀ i, i < k → tickRuns cfg (env i) = true :=
          fun i hi => hrun i (Nat.lt_succ_of_lt hi)
        rw [runTicks_out_succ cfg env mp0 k hk, ih hk, List.range_succ, List.flatMap_append,
          List.flatMap_singleton]
        congr 1
        dsimp only
        rw [if_pos (hrun k (Nat.lt_succ_self k))]
        exact (tick_out_sequential cfg k (env k) _ hseq (hrun k (Nat.lt_succ_self k))).1
    · intro i o ho
      dsimp only at ho
      by_cases hr : tickRuns cfg (env i) = true
      · rw [if_pos hr] at ho
        exact (tick_out_sequential cfg i (env i) _ hseq hr).2 o ho
      · rw [if_neg hr] at ho
        exact absurd ho (List.not_mem_nil o)
  · intro hseq
    exact runTicks_out_forall cfg env mp0 _ (fun i m => tick_out_no_cursor cfg i (env i) m hseq) _
  · intro hseq
    exact runTicks_out_forall cfg env mp0 _
      (fun i m => tick_out_no_iteration cfg i (env i) m hseq) _

/-- Witness of C7: the three-sample sequential run of the sample environment. -/
theorem sequential_headers_witness :
    ∃ lines : Nat → List Out,
      (printinfo 3 0 true true false false (fun _ => sampleEnv 8) 0).out
        = (List.range 3).flatMap (fun i => Out.iteration ((i : Int) + 1) :: lines i) ∧
      ∀ i, ∀ o ∈ lines i, o.plain = true :=
  (sequential_headers (sampleConfig true false) (fun _ => sampleEnv 8) 0).1 rfl
    (fun _ _ => rfl)

/-! ### The cursor frame of refresh mode -/

theorem tick_refresh_frame (cfg : Config) (i : Nat) (e : TickEnv) (m : Machine)
    (hseq : cfg.seq = false) (hrun : tickRuns cfg e = true) :
    (tick cfg i e m).out.head? = some Out.cursorSave ∧
      ((tick cfg i e m).out.getLast? = some Out.cursorRestore ↔ (i : Int) + 1 < cfg.samples) := by
  have hout := tick_out_of_runs cfg i e m hrun
  have hh : tickHeader cfg i = Out.cursorSave ::
      [Out.text ("Number of samples: ".toList ++ fmtInt cfg.samples ++ " -- every ".toList
        ++ fmtInt cfg.delay ++ " secs\n".toList)] := by
    unfold tickHeader
    simp only [hseq, Bool.not_false, if_true]
  refine ⟨?_, ?_⟩
  · rw [hout, hh]
    simp only [List.cons_append, List.head?_cons]
  · by_cases hlt : (i : Int) + 1 < cfg.samples
    · have hf : tickFooter cfg i = [Out.cursorRestore] := by
        unfold tickFooter
        simp only [hseq, Bool.not_false, Bool.true_and, decide_eq_true_eq, hlt, if_true]
      rw [hout, hf, List.getLast?_concat]
      exact ⟨fun _ => hlt, fun _ => rfl⟩
    · refine ⟨fun hlast => ?_, fun h => absurd h hlt⟩
      have hmem := List.mem_of_getLast?_eq_some hlast
      rcases tick_out_mem cfg i e m _ hmem with h | h | h
      · rw [hh] at h
        simp only [List.mem_cons, List.mem_singleton, List.not_mem_nil, or_false] at h
        rcases h with h | h <;> exact Out.noConfusion h
      · exact absurd h Bool.noConfusion
      · unfold tickFooter at h
        simp only [hseq, Bool.not_false, Bool.true_and, decide_eq_true_eq, hlt, if_false,
          List.not_mem_nil] at h

/-- C8, as stated, fails: in refresh mode the last tick of a three-sample run does not
end with the cursor-restore sequence. -/
theorem refresh_last_tick_counterexample :
    ¬ ((tick (sampleConfig false false) 2 (sampleEnv 8)
          (runTicks (sampleConfig false false) (fun _ => sampleEnv 8) 0 2).machine).out.getLast?
        = some Out.cursorRestore) := by
  rw [(tick_refresh_frame (sampleConfig false false) 2 (sampleEnv 8) _ rfl rfl).2]
  decide

/-- C8, amended: in refresh mode the output of every tick that runs to its end starts
with the cursor-save sequence, and it ends with the cursor-restore sequence exactly
when the tick is not the last one (`i + 1 < samples`). -/
theorem refresh_cursor_frame (cfg : Config) (i : Nat) (e : TickEnv) (m : Machine)
    (hseq : cfg.seq = false) (hrun : tickRuns cfg e = true) :
    (tick cfg i e m).out.head? = some Out.cursorSave ∧
      ((tick cfg i e m).out.getLast? = some Out.cursorRestore ↔ (i : Int) + 1 < cfg.samples) :=
  tick_refresh_frame cfg i e m hseq hrun

/-- Witness of C8 (amended): the first tick of a three-sample refresh run starts with
cursor-save and ends with cursor-restore. -/
theorem refresh_cursor_frame_witness :
    (tick (sampleConfig false false) 0 (sampleEnv 8)
        (initState (sampleConfig false false) 0).machine).out.head? = some Out.cursorSave ∧
      (tick (sampleConfig false false) 0 (sampleEnv 8)
        (initState (sampleConfig false false) 0).machine).out.getLast?
          = some Out.cursorRestore :=
  ⟨(refresh_cursor_frame (sampleConfig false false) 0 (sampleEnv 8) _ rfl rfl).1,
   (refresh_cursor_frame (sampleConfig false false) 0 (sampleEnv 8) _ rfl rfl).2.mpr
     (by decide)⟩

/-! ### Which history rows an iteration prints -/

theorem tickHeader_mem (cfg : Config) (i : Nat) (o : Out) (h : o ∈ tickHeader cfg i) :
    (∀ j row, o ≠ Out.memoryRow j row) ∧ (∀ j row, o ≠ Out.cpuRow j row) := by
  unfold tickHeader at h
  simp only [List.mem_cons, List.mem_singleton, List.not_mem_nil, or_false] at h
  rcases h with h | h
  · rw [h]
    split_ifs <;> exact ⟨fun _ _ => Out.noConfusion, fun _ _ => Out.noConfusion⟩
  · rw [h]
    exact ⟨fun _ _ => Out.noConfusion, fun _ _ => Out.noConfusion⟩

theorem tickFooter_mem (cfg : Config) (i : Nat) (o : Out) (h : o ∈ tickFooter cfg i) :
    o = Out.cursorRestore := by
  unfold tickFooter at h
  split_ifs at h
  · exact List.mem_singleton.mp h
  · exact absurd h (List.not_mem_nil o)

theorem tickUser_mem (cfg : Config) (e : TickEnv) (o : Out) (h : o ∈ tickUser cfg e) :
    ∃ s, o = Out.text s := by
  unfold tickUser at h
  split_ifs at h
  · simp only [List.mem_append, List.mem_cons, List.mem_singleton, List.not_mem_nil,
      or_false, List.mem_map] at h
    rcases h with (h1 | h1) | ⟨u, _, h1⟩
    · exact ⟨_, h1⟩
    · exact ⟨_, h1⟩
    · exact ⟨u, h1.symm⟩
  · exact absurd h (List.not_mem_nil o)

theorem memoryUsage_out_rows (samples : Int) (i : Nat) (info : MemoryInfo) (graph : Bool)
    (previous : ℚ) (record : List CStr) (maxrss : Int) (sysinfoOk : Bool) (o : Out)
    (ho : o ∈ (memoryUsage samples i info graph true previous record maxrss sysinfoOk).out) :
    (∀ j row, o = Out.memoryRow j row → j = i) ∧ (∀ j row, o ≠ Out.cpuRow j row) := by
  cases sysinfoOk
  · exact absurd ho (List.not_mem_nil o)
  · change o ∈ [_, _, _] ++ memory_print_rows i true _ ++ memory_padding samples i at ho
    simp only [List.mem_append, List.mem_cons, List.mem_singleton, List.not_mem_nil,
      or_false] at ho
    rcases ho with ((h1 | h1 | h1) | h1) | h1
    · rw [h1]; exact ⟨fun _ _ h => Out.noConfusion h, fun _ _ => Out.noConfusion⟩
    · rw [h1]; exact ⟨fun _ _ h => Out.noConfusion h, fun _ _ => Out.noConfusion⟩
    · rw [h1]; exact ⟨fun _ _ h => Out.noConfusion h, fun _ _ => Out.noConfusion⟩
    · unfold memory_print_rows at h1
      rw [List.mem_map] at h1
      obtain ⟨j', _, rfl⟩ := h1
      by_cases hj : j' = i
      · simp only [hj, Bool.not_true, decide_True, Bool.or_true, if_true]
        exact ⟨fun j row h => by injection h with h1 _; exact h1.symm,
          fun _ _ => Out.noConfusion⟩
      · simp only [hj, Bool.not_true, decide_False, Bool.or_false, Bool.false_eq_true,
          if_false]
        exact ⟨fun _ _ h => Out.noConfusion h, fun _ _ => Out.noConfusion⟩
    · unfold memory_padding at h1
      rw [(List.mem_replicate.mp h1).2]
      exact ⟨fun _ _ h => Out.noConfusion h, fun _ _ => Out.noConfusion⟩

theorem cpu_output_out_rows (graphics : Bool) (i : Nat) (cpu_previous time_previous : Int)
    (info : CPU) (record : List CStr) (cores : Int) (o : Out)
    (ho : o ∈ (cpu_output graphics i cpu_previous time_previous info record cores).out) :
    (∀ j row, o ≠ Out.memoryRow j row) ∧
      (∀ j row, o = Out.cpuRow j row → graphics = true ∧ j ≤ i) := by
  rw [cpu_output_out] at ho
  simp only [List.mem_append, List.mem_cons, List.mem_singleton, List.not_mem_nil,
    or_false] at ho
  rcases ho with (h1 | h1 | h1) | h1
  · rw [h1]; exact ⟨fun _ _ => Out.noConfusion, fun _ _ h => Out.noConfusion h⟩
  · rw [h1]; exact ⟨fun _ _ => Out.noConfusion, fun _ _ h => Out.noConfusion h⟩
  · rw [h1]; exact ⟨fun _ _ => Out.noConfusion, fun _ _ h => Out.noConfusion h⟩
  · split_ifs at h1 with hg
    · unfold appendAndPrintCpuGraphics at h1
      simp only [List.mem_map, List.mem_range] at h1
      obtain ⟨j', hj', rfl⟩ := h1
      refine ⟨fun _ _ => Out.noConfusion, fun j row h => ?_⟩
      injection h with h1 _
      exact ⟨hg, by omega⟩
    · exact absurd h1 (List.not_mem_nil o)

theorem cpu_output_prints_rows (i : Nat) (cpu_previous time_previous : Int)
    (info : CPU) (record : List CStr) (cores : Int) (j : Nat) (hj : j ≤ i) :
    Out.cpuRow j
        (getRow (cpu_output true i cpu_previous time_previous info record cores).record j)
      ∈ (cpu_output true i cpu_previous time_previous info record cores).out := by
  rw [cpu_output_out]
  apply List.mem_append_right
  rw [if_pos rfl]
  unfold appendAndPrintCpuGraphics
  simp only [List.mem_map, List.mem_range]
  exact ⟨j, by omega, rfl⟩

theorem tick_prints_cpu_rows (cfg : Config) (i : Nat) (e : TickEnv) (m : Machine)
    (hsys : cfg.sys = true) (hgraph : cfg.graph = true) (hrun : tickRuns cfg e = true)
    (j : Nat) (hj : j ≤ i) :
    Out.cpuRow j (getRow (tick cfg i e m).machine.cpu_record j) ∈ (tick cfg i e m).out := by
  rw [tick_machine_of_runs cfg i e m hrun, tick_out_of_runs cfg i e m hrun]
  apply List.mem_append_left
  apply List.mem_append_right
  simp only [tickCpu, hsys, if_true, hgraph]
  exact cpu_output_prints_rows i _ _ _ _ _ j hj

/-- C9, as stated, fails for the CPU buffer: in sequential mode with graphics, tick 1
prints row 0 of the CPU history again. -/
theorem sequential_cpu_rows_counterexample :
    ¬ (∀ j row,
        Out.cpuRow j row ∈ (tick (sampleConfig true true) 1 (sampleEnv 8)
          (runTicks (sampleConfig true true) (fun _ => sampleEnv 8) 0 1).machine).out →
        j = 1) := by
  intro h
  have h0 := h 0 _ (tick_prints_cpu_rows (sampleConfig true true) 1 (sampleEnv 8)
    (runTicks (sampleConfig true true) (fun _ => sampleEnv 8) 0 1).machine rfl rfl rfl 0
    (Nat.zero_le 1))
  exact absurd h0 (by decide)

/-- C9, amended: in sequential mode the only row of the memory history printed at
tick `i` is row `i`; a row of the CPU history is printed only when graphics is
enabled and then it is one of the rows `0 .. i`, and a tick that runs to its end with
system statistics and graphics prints every one of the rows `0 .. i`. -/
theorem sequential_rows (cfg : Config) (i : Nat) (e : TickEnv) (m : Machine)
    (hseq : cfg.seq = true) :
    (∀ j row, Out.memoryRow j row ∈ (tick cfg i e m).out → j = i) ∧
      (∀ j row, Out.cpuRow j row ∈ (tick cfg i e m).out → cfg.graph = true ∧ j ≤ i) ∧
      (cfg.sys = true → cfg.graph = true → tickRuns cfg e = true → ∀ j, j ≤ i →
        Out.cpuRow j (getRow (tick cfg i e m).machine.cpu_record j) ∈ (tick cfg i e m).out) := by
  have hparts : ∀ o ∈ (tick cfg i e m).out,
      (∀ j row, o = Out.memoryRow j row → j = i) ∧
        (∀ j row, o = Out.cpuRow j row → cfg.graph = true ∧ j ≤ i) := by
    intro o ho
    rcases tick_out_mem_parts cfg i e m o ho with h | h | h | h | h
    · obtain ⟨h1, h2⟩ := tickHeader_mem cfg i o h
      exact ⟨fun j row hj => absurd hj (h1 j row), fun j row hj => absurd hj (h2 j row)⟩
    · rw [tickMemory_out] at h
      split_ifs at h
      · rw [hseq] at h
        obtain ⟨h1, h2⟩ := memoryUsage_out_rows _ _ _ _ _ _ _ _ o h
        exact ⟨h1, fun j row hj => absurd hj (h2 j row)⟩
      · exact absurd h (List.not_mem_nil o)
    · obtain ⟨s, rfl⟩ := tickUser_mem cfg e o h
      exact ⟨fun _ _ hj => Out.noConfusion hj, fun _ _ hj => Out.noConfusion hj⟩
    · rw [tickCpu_out] at h
      split_ifs at h
      · obtain ⟨h1, h2⟩ := cpu_output_out_rows _ _ _ _ _ _ _ o h
        exact ⟨fun j row hj => absurd hj (h1 j row), h2⟩
      · exact absurd h (List.not_mem_nil o)
    · rw [tickFooter_mem cfg i o h]
      exact ⟨fun _ _ hj => Out.noConfusion hj, fun _ _ hj => Out.noConfusion hj⟩
  refine ⟨fun j row h => (hparts _ h).1 j row rfl, fun j row h => (hparts _ h).2 j row rfl, ?_⟩
  intro hsys hgraph hrun j hj
  exact tick_prints_cpu_rows cfg i e m hsys hgraph hrun j hj

/-- Witness of C9 (amended): the third tick of a sequential run with graphics prints
row 1 of the CPU history, and any memory row it prints is row 2. -/
theorem sequential_rows_witness :
    (∀ j row,
        Out.memoryRow j row ∈ (tick (sampleConfig true true) 2 (sampleEnv 8)
          (runTicks (sampleConfig true true) (fun _ => sampleEnv 8) 0 2).machine).out →
        j = 2) ∧
      Out.cpuRow 1
          (getRow (tick (sampleConfig true true) 2 (sampleEnv 8)
            (runTicks (sampleConfig true true) (fun _ => sampleEnv 8) 0 2).machine
            ).machine.cpu_record 1)
        ∈ (tick (sampleConfig true true) 2 (sampleEnv 8)
            (runTicks (sampleConfig true true) (fun _ => sampleEnv 8) 0 2).machine).out :=
  ⟨(sequential_rows (sampleConfig true true) 2 (sampleEnv 8)
      (runTicks (sampleConfig true true) (fun _ => sampleEnv 8) 0 2).machine rfl).1,
   (sequential_rows (sampleConfig true true) 2 (sampleEnv 8)
      (runTicks (sampleConfig true true) (fun _ => sampleEnv 8) 0 2).machine rfl).2.2
      rfl rfl rfl 1 (by decide)⟩

/-! ### The history buffers -/

theorem getRow_set_ne (record : List CStr) (i j : Nat) (r : CStr) (h : j ≠ i) :
    getRow (record.set i r) j = getRow record j := by
  unfold getRow
  simp [List.getD_eq_getElem?_getD, List.getElem?_set_ne (Ne.symm h)]

theorem getRow_set_self (record : List CStr) (i : Nat) (r : CStr) (h : i < record.length) :
    getRow (record.set i r) i = r := by
  unfold getRow
  simp [List.getD_eq_getElem?_getD, h]

theorem getRow_replicate (k j : Nat) : getRow (List.replicate k ([] : CStr)) j = [] := by
  unfold getRow
  simp only [List.getD_eq_getElem?_getD, List.getElem?_replicate]
  split_ifs <;> rfl

theorem memory_base_ne_nil (info : MemoryInfo) (graph : Bool) : memory_base info graph ≠ [] := by
  unfold memory_base
  intro h
  have h1 := (List.append_eq_nil.mp h).1
  have h2 := (List.append_eq_nil.mp h1).1
  exact absurd (List.append_eq_nil.mp h2).2 (by decide)

theorem memory_graphic_row_ne_nil (row : CStr) (c p : ℚ) (i : Nat) (h : row ≠ []) :
    memory_graphic_row row c p i ≠ [] := by
  unfold memory_graphic_row
  simp only
  split_ifs
  · intro h1
    exact h (List.append_eq_nil.mp (List.append_eq_nil.mp (List.append_eq_nil.mp h1).1).1).1
  · intro h1
    exact h (List.append_eq_nil.mp h1).1

theorem memoryUsage_record (samples : Int) (i : Nat) (info : MemoryInfo) (graph seq : Bool)
    (previous : ℚ) (record : List CStr) (maxrss : Int) :
    (memoryUsage samples i info graph seq previous record maxrss true).record
      = if graph = true then
          (record.set i (memory_base info graph)).set i
            (memory_graphic_row (getRow (record.set i (memory_base info graph)) i)
              info.used_memory previous i)
        else record.set i (memory_base info graph) := by
  unfold memoryUsage
  rw [if_neg Bool.noConfusion]
  cases graph
  · simp only [Bool.false_eq_true, if_false]
  · simp only [if_true, appendMemoryGraphicToTail]

theorem memoryUsage_record_failed (samples : Int) (i : Nat) (info : MemoryInfo)
    (graph seq : Bool) (previous : ℚ) (record : List CStr) (maxrss : Int) :
    (memoryUsage samples i info graph seq previous record maxrss false).record = record := rfl

theorem memoryUsage_row_other (samples : Int) (i : Nat) (info : MemoryInfo) (graph seq : Bool)
    (previous : ℚ) (record : List CStr) (maxrss : Int) (sysinfoOk : Bool) (j : Nat)
    (h : j ≠ i) :
    getRow (memoryUsage samples i info graph seq previous record maxrss sysinfoOk).record j
      = getRow record j := by
  cases sysinfoOk
  · rw [memoryUsage_record_failed]
  · rw [memoryUsage_record]
    split_ifs
    · rw [getRow_set_ne _ _ _ _ h, getRow_set_ne _ _ _ _ h]
    · rw [getRow_set_ne _ _ _ _ h]

theorem memoryUsage_length (samples : Int) (i : Nat) (info : MemoryInfo) (graph seq : Bool)
    (previous : ℚ) (record : List CStr) (maxrss : Int) (sysinfoOk : Bool) :
    (memoryUsage samples i info graph seq previous record maxrss sysinfoOk).record.length
      = record.length := by
  cases sysinfoOk
  · rw [memoryUsage_record_failed]
  · rw [memoryUsage_record]
    split_ifs
    · rw [List.length_set, List.length_set]
    · rw [List.length_set]

theorem memoryUsage_row_self (samples : Int) (i : Nat) (info : MemoryInfo) (graph seq : Bool)
    (previous : ℚ) (record : List CStr) (maxrss : Int) (h : i < record.length) :
    getRow (memoryUsage samples i info graph seq previous record maxrss true).record i ≠ [] := by
  rw [memoryUsage_record]
  split_ifs
  · rw [getRow_set_self _ _ _ (by rw [List.length_set]; exact h), getRow_set_self _ _ _ h]
    exact memory_graphic_row_ne_nil _ _ _ _ (memory_base_ne_nil info graph)
  · rw [getRow_set_self _ _ _ h]
    exact memory_base_ne_nil info graph

theorem tickMemory_record (cfg : Config) (i : Nat) (e : TickEnv) (m : Machine) :
    (tickMemory cfg i e m).record
      = if cfg.sys = true then
          (memoryUsage cfg.samples i e.mem cfg.graph cfg.seq m.memory_previous m.memory_record
            e.maxrss e.sysinfoOk).record
        else m.memory_record := by
  unfold tickMemory
  split_ifs <;> rfl

theorem tickCpu_record (cfg : Config) (i : Nat) (e : TickEnv) (m : Machine) :
    (tickCpu cfg i e m).1.record
      = if cfg.sys = true ∧ cfg.graph = true then
          m.cpu_record.set i (cpu_graphic_row (cpu_use m.cpu_previous m.cpu_idle e.cpu))
        else m.cpu_record := by
  unfold tickCpu cpu_output appendAndPrintCpuGraphics
  cases hs : cfg.sys <;> cases hg : cfg.graph <;>
    simp only [Bool.false_eq_true, if_true, if_false, and_self, and_false, false_and]

theorem tick_machine_of_not_runs (cfg : Config) (i : Nat) (e : TickEnv) (m : Machine)
    (h : ¬ tickRuns cfg e = true) : (tick cfg i e m).machine = m := by
  unfold tick
  split_ifs with h1 h2 h3 h4
  · rfl
  · rfl
  · rfl
  · rfl
  · have hk : (tickMemory cfg i e m).killed = true := by
      rw [Bool.not_eq_false] at h1 h2 h3 h4
      simp only [tickRuns, h1, h2, h3, h4, Bool.and_self, Bool.true_and, Bool.or_eq_true,
        Bool.not_eq_true', not_or, Bool.not_eq_false, Bool.not_eq_true] at h
      unfold tickMemory memoryUsage
      simp only [h.1, h.2, if_true]
    unfold tickParent
    simp only [hk, if_true]

theorem tick_rows_other (cfg : Config) (i : Nat) (e : TickEnv) (m : Machine) (j : Nat)
    (h : j ≠ i) :
    getRow (tick cfg i e m).machine.memory_record j = getRow m.memory_record j ∧
      getRow (tick cfg i e m).machine.cpu_record j = getRow m.cpu_record j := by
  by_cases hrun : tickRuns cfg e = true
  · rw [tick_machine_of_runs cfg i e m hrun]
    simp only [tickMemory_record, tickCpu_record]
    constructor
    · split_ifs
      · exact memoryUsage_row_other _ _ _ _ _ _ _ _ _ j h
      · rfl
    · split_ifs
      · exact getRow_set_ne _ _ _ _ h
      · rfl
  · rw [tick_machine_of_not_runs cfg i e m hrun]
    exact ⟨rfl, rfl⟩

theorem tick_memory_length (cfg : Config) (i : Nat) (e : TickEnv) (m : Machine) :
    (tick cfg i e m).machine.memory_record.length = m.memory_record.length := by
  by_cases hrun : tickRuns cfg e = true
  · rw [tick_machine_of_runs cfg i e m hrun]
    simp only [tickMemory_record]
    split_ifs
    · exact memoryUsage_length _ _ _ _ _ _ _ _ _
    · rfl
  · rw [tick_machine_of_not_runs cfg i e m hrun]

theorem tick_memory_row_self (cfg : Config) (i : Nat) (e : TickEnv) (m : Machine)
    (hsys : cfg.sys = true) (hrun : tickRuns cfg e = true) (hlen : i < m.memory_record.length) :
    getRow (tick cfg i e m).machine.memory_record i ≠ [] := by
  have hok : e.sysinfoOk = true := by
    simp only [tickRuns, hsys, Bool.not_true, Bool.false_or, Bool.and_eq_true] at hrun
    exact hrun.2
  rw [tick_machine_of_runs cfg i e m hrun]
  simp only [tickMemory_record, hsys, if_true, hok]
  exact memoryUsage_row_self _ _ _ _ _ _ _ _ hlen

theorem runTicks_memory_length (cfg : Config) (env : Nat → TickEnv) (mp0 : ℚ) (n : Nat) :
    (runTicks cfg env mp0 n).machine.memory_record.length = cfg.samples.toNat := by
  induction n with
  | zero => exact List.length_replicate _ _
  | succ k ih =>
    by_cases hs : (runTicks cfg env mp0 k).status = Status.running
    · rw [runTicks_succ_of_running cfg env mp0 k hs]
      exact (tick_memory_length cfg k (env k) _).trans ih
    · have heq : runTicks cfg env mp0 (k + 1) = runTicks cfg env mp0 k := by
        conv_lhs => unfold runTicks
        simp only [hs, if_false]
      rw [heq]
      exact ih

theorem runTicks_rows_other (cfg : Config) (env : Nat → TickEnv) (mp0 : ℚ) (n j : Nat)
    (h : j < n) (k : Nat) :
    getRow (runTicks cfg env mp0 (n + k)).machine.memory_record j
        = getRow (runTicks cfg env mp0 n).machine.memory_record j ∧
      getRow (runTicks cfg env mp0 (n + k)).machine.cpu_record j
        = getRow (runTicks cfg env mp0 n).machine.cpu_record j := by
  induction k with
  | zero => exact ⟨rfl, rfl⟩
  | succ k ih =>
    by_cases hs : (runTicks cfg env mp0 (n + k)).status = Status.running
    · have hstep : runTicks cfg env mp0 (n + (k + 1)) = _ :=
        runTicks_succ_of_running cfg env mp0 (n + k) hs
      rw [hstep]
      have ho := tick_rows_other cfg (n + k) (env (n + k))
        (runTicks cfg env mp0 (n + k)).machine j (by omega)
      exact ⟨ho.1.trans ih.1, ho.2.trans ih.2⟩
    · have heq : runTicks cfg env mp0 (n + (k + 1)) = runTicks cfg env mp0 (n + k) := by
        show runTicks cfg env mp0 ((n + k) + 1) = _
        conv_lhs => unfold runTicks
        simp only [hs, if_false]
      rw [heq]
      exact ih

theorem runTicks_memory_rows (cfg : Config) (env : Nat → TickEnv) (mp0 : ℚ) (n : Nat)
    (hsys : cfg.sys = true) (hn : n ≤ cfg.samples.toNat)
    (hrun : ∀ k, k < n → tickRuns cfg (env k) = true) :
    (∀ j, j < n → getRow (runTicks cfg env mp0 n).machine.memory_record j ≠ []) ∧
      (∀ j, n ≤ j → getRow (runTicks cfg env mp0 n).machine.memory_record j = []) := by
  induction n with
  | zero =>
    exact ⟨fun j hj => absurd hj (Nat.not_lt_zero j), fun j _ => getRow_replicate _ j⟩
  | succ k ih =>
    have hk : ∀ i, i < k → tickRuns cfg (env i) = true :=
      fun i hi => hrun i (Nat.lt_succ_of_lt hi)
    obtain ⟨ih1, ih2⟩ := ih (Nat.le_of_succ_le hn) hk
    rw [runTicks_machine_succ cfg env mp0 k hk]
    constructor
    · intro j hj
      by_cases hjk : j = k
      · rw [hjk]
        exact tick_memory_row_self cfg k (env k) _ hsys (hrun k (Nat.lt_succ_self k))
          (by rw [runTicks_memory_length]; omega)
      · rw [(tick_rows_other cfg k (env k) _ j hjk).1]
        exact ih1 j (by omega)
    · intro j hj
      rw [(tick_rows_other cfg k (env k) _ j (by omega)).1]
      exact ih2 j (by omega)

/-- C10: in a run with system statistics whose ticks `0 .. i` (`i < samples`) have run
to their end, exactly the rows `0 .. i` of the memory history are populated and the
rows above `i` are still empty; tick `i` leaves every row other than row `i` of both
histories as it was, so the rows `0 .. i` are the same after any number of later
ticks. -/
theorem history_rows (cfg : Config) (env : Nat → TickEnv) (mp0 : ℚ) (i : Nat)
    (hsys : cfg.sys = true) (hi : (i : Int) < cfg.samples)
    (hrun : ∀ k, k ≤ i → tickRuns cfg (env k) = true) :
    (∀ j, j ≤ i → getRow (runTicks cfg env mp0 (i + 1)).machine.memory_record j ≠ []) ∧
      (∀ j, i < j → getRow (runTicks cfg env mp0 (i + 1)).machine.memory_record j = []) ∧
      (∀ (e : TickEnv) (m : Machine) (j : Nat), j ≠ i →
        getRow (tick cfg i e m).machine.memory_record j = getRow m.memory_record j ∧
          getRow (tick cfg i e m).machine.cpu_record j = getRow m.cpu_record j) ∧
      (∀ k j, j ≤ i →
        getRow (runTicks cfg env mp0 (i + 1 + k)).machine.memory_record j
            = getRow (runTicks cfg env mp0 (i + 1)).machine.memory_record j ∧
          getRow (runTicks cfg env mp0 (i + 1 + k)).machine.cpu_record j
            = getRow (runTicks cfg env mp0 (i + 1)).machine.cpu_record j) := by
  have hrows := runTicks_memory_rows cfg env mp0 (i + 1) hsys (by omega)
    (fun k hk => hrun k (by omega))
  refine ⟨fun j hj => hrows.1 j (by omega), fun j hj => hrows.2 j (by omega), ?_, ?_⟩
  · intro e m j hj
    exact tick_rows_other cfg i e m j hj
  · intro k j hj
    exact runTicks_rows_other cfg env mp0 (i + 1) j (by omega) k

/-- Witness of C10: after the first two ticks of the three-sample sample run, rows 0
and 1 of the memory history are populated and row 2 is empty. -/
theorem history_rows_witness :
    getRow (runTicks (sampleConfig true true) (fun _ => sampleEnv 8) 0 2).machine.memory_record 0
        ≠ [] ∧
      getRow (runTicks (sampleConfig true true) (fun _ => sampleEnv 8) 0 2).machine.memory_record 1
        ≠ [] ∧
      getRow (runTicks (sampleConfig true true) (fun _ => sampleEnv 8) 0 2).machine.memory_record 2
        = [] :=
  ⟨(history_rows (sampleConfig true true) (fun _ => sampleEnv 8) 0 1 rfl (by decide)
      (fun _ _ => rfl)).1 0 (by decide),
   (history_rows (sampleConfig true true) (fun _ => sampleEnv 8) 0 1 rfl (by decide)
      (fun _ _ => rfl)).1 1 (by decide),
   (history_rows (sampleConfig true true) (fun _ => sampleEnv 8) 0 1 rfl (by decide)
      (fun _ _ => rfl)).2.1 2 (by decide)⟩

/-! ### The memory block of refresh mode -/

theorem sum_map_eq_length {α : Type} (l : List α) (f : α → Nat) (h : ∀ a ∈ l, f a = 1) :
    (l.map f).sum = l.length := by
  induction l with
  | nil => rfl
  | cons a t ih =>
    rw [List.map_cons, List.sum_cons, List.length_cons, h a (List.mem_cons_self a t),
      ih (fun b hb => h b (List.mem_cons_of_mem a hb)), Nat.add_comm]

theorem memoryUsage_out_ok (samples : Int) (i : Nat) (info : MemoryInfo) (graph seq : Bool)
    (previous : ℚ) (record : List CStr) (maxrss : Int) :
    (memoryUsage samples i info graph seq previous record maxrss true).out
      = [Out.text ("MemoryUsage: ".toList ++ fmtInt maxrss ++ " kilobytes\n".toList),
         Out.text "--------------------------------------------\n".toList,
         Out.text "### Memory ### (Phys.Used/Tot -- Virtual Used/Tot)\n".toList]
        ++ memory_print_rows i seq
            (memoryUsage samples i info graph seq previous record maxrss true).record
        ++ memory_padding samples i := rfl

/-- C11: in refresh mode, at a tick `i < samples`, `memoryUsage` prints (after its
three heading lines) the rows `0, 1, .., i` of the memory history in index order and
then exactly `samples - i - 1` blank lines; when every one of these rows holds one
newline the block is `samples` lines long. -/
theorem refresh_memory_block (samples : Int) (i : Nat) (info : MemoryInfo) (graph : Bool)
    (previous : ℚ) (record : List CStr) (maxrss : Int) (hi : (i : Int) < samples) :
    (memoryUsage samples i info graph false previous record maxrss true).out
        = [Out.text ("MemoryUsage: ".toList ++ fmtInt maxrss ++ " kilobytes\n".toList),
           Out.text "--------------------------------------------\n".toList,
           Out.text "### Memory ### (Phys.Used/Tot -- Virtual Used/Tot)\n".toList]
          ++ (List.range (i + 1)).map (fun j => Out.memoryRow j
                (getRow (memoryUsage samples i info graph false previous record maxrss
                  true).record j))
          ++ List.replicate (samples - (i : Int) - 1).toNat (Out.text "\n".toList) ∧
      (((samples - (i : Int) - 1).toNat : Int) = samples - (i : Int) - 1) ∧
      ((∀ j, j ≤ i →
          (getRow (memoryUsage samples i info graph false previous record maxrss
            true).record j).count '\n' = 1) →
        newlineCount
          ((List.range (i + 1)).map (fun j => Out.memoryRow j
                (getRow (memoryUsage samples i info graph false previous record maxrss
                  true).record j))
            ++ List.replicate (samples - (i : Int) - 1).toNat (Out.text "\n".toList))
          = samples.toNat) := by
  refine ⟨?_, by omega, ?_⟩
  · rw [memoryUsage_out_ok]
    unfold memory_print_rows memory_padding
    simp only [Bool.not_false, Bool.true_or, if_true]
  · intro hrows
    unfold newlineCount
    rw [sum_map_eq_length]
    · rw [List.length_append, List.length_map, List.length_range, List.length_replicate]
      omega
    · intro a ha
      rcases List.mem_append.mp ha with h | h
      · rw [List.mem_map] at h
        obtain ⟨j, hj, rfl⟩ := h
        exact hrows j (by rw [List.mem_range] at hj; omega)
      · rw [(List.mem_replicate.mp h).2]
        rfl

/-- Witness of C11: the second tick of a three-sample refresh run without graphics
prints rows 0 and 1 and then one blank line. -/
theorem refresh_memory_block_witness :
    (memoryUsage 3 1 (sampleMemory 8) false false 0
        [memory_base (sampleMemory 8) false, [], []] 2048 true).out
      = [Out.text ("MemoryUsage: ".toList ++ fmtInt 2048 ++ " kilobytes\n".toList),
         Out.text "--------------------------------------------\n".toList,
         Out.text "### Memory ### (Phys.Used/Tot -- Virtual Used/Tot)\n".toList]
        ++ (List.range (1 + 1)).map (fun j => Out.memoryRow j
              (getRow (memoryUsage 3 1 (sampleMemory 8) false false 0
                [memory_base (sampleMemory 8) false, [], []] 2048 true).record j))
        ++ List.replicate ((3 : Int) - ((1 : Nat) : Int) - 1).toNat (Out.text "\n".toList) :=
  (refresh_memory_block 3 1 (sampleMemory 8) false 0
    [memory_base (sampleMemory 8) false, [], []] 2048 (by decide)).1

/-! ### Argument parsing -/

theorem digit_ne_of (c d : Char) (h : c.isDigit = true) (hd : d.isDigit = false) : c ≠ d := by
  rintro rfl
  rw [h] at hd
  exact Bool.noConfusion hd

theorem digit_ge (c : Char) (h : c.isDigit = true) : 48 ≤ c.toNat := by
  simp only [Char.isDigit, Bool.and_eq_true, decide_eq_true_eq] at h
  exact h.1

theorem takeWhile_dropWhile_all (p : Char → Bool) (s : CStr) (h : ∀ c ∈ s, p c = true) :
    s.takeWhile p = s ∧ s.dropWhile p = [] := by
  induction s with
  | nil => exact ⟨rfl, rfl⟩
  | cons c cs ih =>
    have hc := h c (List.mem_cons_self c cs)
    obtain ⟨h1, h2⟩ := ih (fun d hd => h d (List.mem_cons_of_mem c hd))
    rw [List.takeWhile_cons, List.dropWhile_cons, hc]
    simp only [if_true]
    exact ⟨by rw [h1], h2⟩

theorem takeWhile_dropWhile_stop (p : Char → Bool) (f r : CStr) (x : Char)
    (hf : ∀ c ∈ f, p c = true) (hx : p x = false) :
    (f ++ x :: r).takeWhile p = f ∧ (f ++ x :: r).dropWhile p = x :: r := by
  induction f with
  | nil =>
    rw [List.nil_append, List.takeWhile_cons, List.dropWhile_cons, hx]
    exact ⟨rfl, rfl⟩
  | cons c cs ih =>
    have hc := hf c (List.mem_cons_self c cs)
    obtain ⟨h1, h2⟩ := ih (fun d hd => hf d (List.mem_cons_of_mem c hd))
    rw [List.cons_append, List.takeWhile_cons, List.dropWhile_cons, hc]
    simp only [if_true]
    exact ⟨by rw [h1], h2⟩

theorem takeWhile_dropWhile_head (p : Char → Bool) (c : Char) (cs : CStr) (h : p c = false) :
    (c :: cs).takeWhile p = [] ∧ (c :: cs).dropWhile p = c :: cs := by
  rw [List.takeWhile_cons, List.dropWhile_cons, h]
  exact ⟨rfl, rfl⟩

theorem strtok_plain (s : CStr) (hne : s ≠ []) (h : ∀ c ∈ s, c ≠ '=') :
    strtok s = some { token := s, str := s, rest := none } := by
  obtain ⟨c, cs, rfl⟩ := List.exists_cons_of_ne_nil hne
  have hc : decide (c = '=') = false := decide_eq_false (h c (List.mem_cons_self c cs))
  obtain ⟨h1, h2⟩ := takeWhile_dropWhile_head (fun c => decide (c = '=')) c cs hc
  obtain ⟨h3, h4⟩ := takeWhile_dropWhile_all (fun c => decide (c ≠ '=')) (c :: cs)
    (fun d hd => decide_eq_true (h d hd))
  unfold strtok
  simp only [h1, h2, h3, h4, List.drop_nil, if_true, List.nil_append]
  rw [if_neg (List.cons_ne_nil c cs)]

theorem strtok_flag (f r : CStr) (hne : f ≠ []) (h : ∀ c ∈ f, c ≠ '=') :
    strtok (f ++ '=' :: r)
      = some { token := f, str := f, rest := if r = [] then none else some r } := by
  obtain ⟨c, cs, rfl⟩ := List.exists_cons_of_ne_nil hne
  have hc : decide (c = '=') = false := decide_eq_false (h c (List.mem_cons_self c cs))
  obtain ⟨h1, h2⟩ := takeWhile_dropWhile_head (fun c => decide (c = '=')) c (cs ++ '=' :: r) hc
  obtain ⟨h3, h4⟩ := takeWhile_dropWhile_stop (fun c => decide (c ≠ '=')) (c :: cs) r '='
    (fun d hd => decide_eq_true (h d hd)) (by decide)
  unfold strtok
  rw [List.cons_append] at h3 h4
  simp only [List.cons_append, h1, h2, h3, h4, List.drop_succ_cons, List.drop_zero,
    List.nil_append]
  rw [if_neg (List.cons_ne_nil c _)]

theorem isIntegerLoop_digits (s : CStr) (h : ∀ c ∈ s, c.isDigit = true) :
    isIntegerLoop s = true := by
  induction s with
  | nil => rfl
  | cons c cs ih =>
    unfold isIntegerLoop
    rw [h c (List.mem_cons_self c cs)]
    exact ih (fun d hd => h d (List.mem_cons_of_mem c hd))

theorem isInteger_digits (s : CStr) (hne : s ≠ []) (h : ∀ c ∈ s, c.isDigit = true) :
    isInteger s = true := by
  obtain ⟨c, cs, rfl⟩ := List.exists_cons_of_ne_nil hne
  exact isIntegerLoop_digits (c :: cs) h

theorem atoiDigits_digits (s : CStr) (h : ∀ c ∈ s, c.isDigit = true) (acc : Nat) :
    atoiDigits (acc : Int) s
      = ((s.foldl (fun a c => a * 10 + (c.toNat - 48)) acc : Nat) : Int) := by
  induction s generalizing acc with
  | nil => rfl
  | cons c cs ih =>
    have hc := h c (List.mem_cons_self c cs)
    have hge := digit_ge c hc
    unfold atoiDigits
    rw [if_pos hc, List.foldl_cons, ← ih (fun d hd => h d (List.mem_cons_of_mem c hd))]
    congr 1
    push_cast [Nat.cast_sub hge]
    ring

theorem atoi_digits (s : CStr) (hne : s ≠ []) (h : ∀ c ∈ s, c.isDigit = true) :
    atoi s = (decimalValue s : Int) := by
  obtain ⟨c, cs, rfl⟩ := List.exists_cons_of_ne_nil hne
  have hc := h c (List.mem_cons_self c cs)
  have hsp : isspace c = false := by
    unfold isspace
    simp only [Bool.or_eq_false_iff, decide_eq_false_iff_not]
    exact ⟨⟨⟨⟨⟨digit_ne_of c _ hc (by decide), digit_ne_of c _ hc (by decide)⟩,
      digit_ne_of c _ hc (by decide)⟩, digit_ne_of c _ hc (by decide)⟩,
      digit_ne_of c _ hc (by decide)⟩, digit_ne_of c _ hc (by decide)⟩
  have hdrop : (c :: cs).dropWhile isspace = c :: cs :=
    (takeWhile_dropWhile_head isspace c cs hsp).2
  have hval := atoiDigits_digits (c :: cs) h 0
  unfold atoi
  rw [hdrop]
  split
  · rename_i heq
    injection heq with h1 _
    exact absurd h1 (digit_ne_of c _ hc (by decide))
  · rename_i heq
    injection heq with h1 _
    exact absurd h1 (digit_ne_of c _ hc (by decide))
  · exact hval

theorem digits_ne_of_mem (s f : CStr) (h : ∀ c ∈ s, c.isDigit = true) (x : Char) (hx : x ∈ f)
    (hxd : x.isDigit = false) : s ≠ f := by
  rintro rfl
  rw [h x hx] at hxd
  exact Bool.noConfusion hxd

theorem digits_no_equals (s : CStr) (h : ∀ c ∈ s, c.isDigit = true) : ∀ c ∈ s, c ≠ '=' :=
  fun c hc => digit_ne_of c _ (h c hc) (by decide)

theorem parse_positional_pair (N M : CStr) (vars : Config) (hN : N ≠ [])
    (hNd : ∀ c ∈ N, c.isDigit = true) (hM : M ≠ []) (hMd : ∀ c ∈ M, c.isDigit = true) :
    parseargument [N, M] vars
      = parseLoop [] false true true { vars with delay := atoi M, samples := atoi N } := by
  unfold parseargument
  conv_lhs => rw [parseLoop, strtok_plain N hN (digits_no_equals N hNd)]
  simp only
  rw [if_neg (digits_ne_of_mem N _ hNd '-' (by decide) (by decide)),
    if_neg (digits_ne_of_mem N _ hNd '-' (by decide) (by decide)),
    if_neg (digits_ne_of_mem N _ hNd '-' (by decide) (by decide)),
    if_neg (digits_ne_of_mem N _ hNd '-' (by decide) (by decide)),
    if_neg (digits_ne_of_mem N _ hNd '-' (by decide) (by decide)),
    if_neg (digits_ne_of_mem N _ hNd '-' (by decide) (by decide))]
  have hcond : (isInteger N && !([M] : List CStr).isEmpty && isInteger (([M] : List CStr).headD [])
      && !false && !false) = true := by
    rw [isInteger_digits N hN hNd]
    show (true && true && isInteger M && true && true) = true
    rw [isInteger_digits M hM hMd]
    rfl
  rw [if_pos hcond]
  conv_lhs => rw [parseLoop]
  rfl

theorem parse_flag_pair (N M : CStr) (vars : Config) (hN : N ≠ []) (hM : M ≠ []) :
    parseargument ["--samples=".toList ++ N, "--tdelay=".toList ++ M] vars
      = parseLoop [] false true true { vars with delay := atoi M, samples := atoi N } := by
  have h1 : "--samples=".toList ++ N = "--samples".toList ++ '=' :: N := rfl
  have h2 : "--tdelay=".toList ++ M = "--tdelay".toList ++ '=' :: M := rfl
  unfold parseargument
  conv_lhs => rw [h1, parseLoop, strtok_flag _ N (by decide) (by decide)]
  simp only
  rw [if_pos trivial, if_neg hN]
  simp only
  conv_lhs => rw [h2, parseLoop, strtok_flag _ M (by decide) (by decide)]
  simp only
  rw [if_neg (by decide), if_pos trivial, if_neg hM]

/-- C12: for digit strings `N` and `M` denoting values in the range of `int`,
`parseargument` on `[N, M]` returns true with `samples = N`, `delay = M` and the
default `sys = user = true`, and the outcome is the one of `[--samples=N, --tdelay=M]`. -/
theorem positional_equals_flags (N M : CStr) (hN : N ≠ [])
    (hNd : ∀ c ∈ N, c.isDigit = true) (hM : M ≠ []) (hMd : ∀ c ∈ M, c.isDigit = true)
    (_hNr : decimalValue N < 2 ^ 31) (_hMr : decimalValue M < 2 ^ 31) :
    parseargument [N, M] mainDefaults
        = ParseOutcome.returned true
            { samples := (decimalValue N : Int), delay := (decimalValue M : Int), seq := false,
              sys := true, user := true, graph := false } ∧
      (∀ vars : Config,
        parseargument [N, M] vars
          = parseargument ["--samples=".toList ++ N, "--tdelay=".toList ++ M] vars) := by
  constructor
  · rw [parse_positional_pair N M mainDefaults hN hNd hM hMd, atoi_digits N hN hNd,
      atoi_digits M hM hMd]
    rfl
  · intro vars
    rw [parse_positional_pair N M vars hN hNd hM hMd, parse_flag_pair N M vars hN hM]

/-- Witness of C12: the arguments `5 2` give `samples = 5` and `delay = 2`. -/
theorem positional_equals_flags_witness :
    parseargument ["5".toList, "2".toList] mainDefaults
      = ParseOutcome.returned true
          { samples := (decimalValue "5".toList : Int), delay := (decimalValue "2".toList : Int),
            seq := false, sys := true, user := true, graph := false } ∧
      (decimalValue "5".toList = 5 ∧ decimalValue "2".toList = 2) :=
  ⟨(positional_equals_flags "5".toList "2".toList (by decide) (by decide) (by decide)
      (by decide) (by decide) (by decide)).1, by decide, by decide⟩

theorem main_of_parse_ok (argv : List CStr) (env : Nat → TickEnv) (mp0 : ℚ) (banner : List Out)
    (vars : Config) (h : parseargument argv mainDefaults = ParseOutcome.returned true vars) :
    (main argv env mp0 banner).run
        = some (printinfo vars.samples vars.delay vars.seq vars.sys vars.user vars.graph env mp0) ∧
      (main argv env mp0 banner).code ≠ some 1 := by
  unfold main
  rw [h]
  simp only
  split_ifs
  · exact ⟨rfl, fun h => by injection h with h; exact absurd h (by decide)⟩
  · exact ⟨rfl, fun h => Option.noConfusion h⟩

/-- C13 at its failing input: the argument `--system=junk` is not one of the
recognized forms, yet `parseargument` returns true with `sys` set (the `strtok` call
has cut `argv[1]` at the `=` before `strcmp(argv[i], "--system")` runs), and `main`
goes on to call `printinfo` and does not return 1. -/
theorem parseargument_accepts_cut_flag :
    recognizedForm "--system=junk".toList = false ∧
      parseargument ["--system=junk".toList] mainDefaults
        = ParseOutcome.returned true
            { samples := 10, delay := 1, seq := false, sys := true, user := false,
              graph := false } ∧
      (main ["--system=junk".toList] (fun _ => sampleEnv 8) 0 []).run
        = some (printinfo 10 1 false true false false (fun _ => sampleEnv 8) 0) ∧
      (main ["--system=junk".toList] (fun _ => sampleEnv 8) 0 []).code ≠ some 1 := by
  have hp : parseargument ["--system=junk".toList] mainDefaults
      = ParseOutcome.returned true
          { samples := 10, delay := 1, seq := false, sys := true, user := false,
            graph := false } := by decide
  exact ⟨by decide, hp, main_of_parse_ok _ _ _ _ _ hp⟩

/-! ### The signal handler -/

theorem handle_sigint_status (sig : Int) (scan : ScanResult) :
    (handle_sigint sig scan).status
      = if sig = SIGINT then
          (match scan with
            | ScanResult.failed errno =>
              if errno = EINTR then Status.running else Status.exited EXIT_FAILURE
            | ScanResult.read ans =>
              if ans = 'y' ∨ ans = 'Y' then Status.exited EXIT_SUCCESS else Status.running)
        else Status.running := by
  unfold handle_sigint
  by_cases h1 : sig = SIGTSTP
  · have h2 : ¬ sig = SIGINT := by rw [h1]; decide
    rw [if_pos h1, if_neg h2]
  · rw [if_neg h1]
    by_cases h2 : sig = SIGINT
    · rw [if_pos h2, if_pos h2]
      cases scan with
      | read ans => by_cases h3 : ans = 'y' ∨ ans = 'Y' <;> simp only [h3, if_true, if_false]
      | failed errno => by_cases h3 : errno = EINTR <;> simp only [h3, if_true, if_false]
    · rw [if_neg h2, if_neg h2]

/-- C14: `handle_sigint` ends the process with the success code exactly when the
signal is `SIGINT` and the character read is `y` or `Y`, with the failure code exactly
when the signal is `SIGINT` and the read failed with an `errno` other than `EINTR`,
and returns in every other case (`SIGTSTP`, another answer, a read cut by `EINTR`). -/
theorem handle_sigint_outcomes (sig : Int) (scan : ScanResult) :
    ((handle_sigint sig scan).status = Status.exited EXIT_SUCCESS ↔
        sig = SIGINT ∧ (scan = ScanResult.read 'y' ∨ scan = ScanResult.read 'Y')) ∧
      ((handle_sigint sig scan).status = Status.exited EXIT_FAILURE ↔
        sig = SIGINT ∧ ∃ errno, scan = ScanResult.failed errno ∧ errno ≠ EINTR) ∧
      ((handle_sigint sig scan).status = Status.running ↔
        ¬ (sig = SIGINT ∧ (scan = ScanResult.read 'y' ∨ scan = ScanResult.read 'Y')) ∧
          ¬ (sig = SIGINT ∧ ∃ errno, scan = ScanResult.failed errno ∧ errno ≠ EINTR)) ∧
      (handle_sigint SIGTSTP scan).status = Status.running ∧
      (handle_sigint sig (ScanResult.read 'n')).status = Status.running ∧
      (handle_sigint sig (ScanResult.failed EINTR)).status = Status.running := by
  have hcode : EXIT_SUCCESS ≠ EXIT_FAILURE := by decide
  have hcode' : EXIT_FAILURE ≠ EXIT_SUCCESS := by decide
  have hn : ¬ (('n' : Char) = 'y' ∨ ('n' : Char) = 'Y') := by decide
  refine ⟨?_, ?_, ?_, ?_, ?_, ?_⟩
  · rw [handle_sigint_status]
    by_cases h2 : sig = SIGINT
    · cases scan with
      | read ans =>
        by_cases h3 : ans = 'y' ∨ ans = 'Y' <;>
          simp [h2, h3, hcode, hcode']
      | failed errno =>
        by_cases h3 : errno = EINTR <;> simp [h2, h3, hcode, hcode']
    · simp [h2]
  · rw [handle_sigint_status]
    by_cases h2 : sig = SIGINT
    · cases scan with
      | read ans =>
        by_cases h3 : ans = 'y' ∨ ans = 'Y' <;>
          simp [h2, h3, hcode, hcode']
      | failed errno =>
        by_cases h3 : errno = EINTR <;> simp [h2, h3, hcode, hcode']
    · simp [h2]
  · rw [handle_sigint_status]
    by_cases h2 : sig = SIGINT
    · cases scan with
      | read ans =>
        by_cases h3 : ans = 'y' ∨ ans = 'Y' <;>
          simp [h2, h3, hcode, hcode']
      | failed errno =>
        by_cases h3 : errno = EINTR <;> simp [h2, h3, hcode, hcode']
    · simp [h2]
  · rw [handle_sigint_status, if_neg (by decide)]
  · rw [handle_sigint_status]
    split_ifs
    · simp only [hn, if_false]
    · rfl
  · rw [handle_sigint_status]
    split_ifs
    · simp only [if_true]
    · rfl

/-! ### The collectors started at a tick -/

theorem tick_forked (cfg : Config) (i : Nat) (e : TickEnv) (m : Machine) :
    (tick cfg i e m).forked
      = if e.pipeOk = false then []
        else if e.forkMemoryOk = false then []
        else if e.forkUserOk = false then [Collector.memory]
        else if e.forkCpuOk = false then [Collector.memory, Collector.user]
        else [Collector.memory, Collector.user, Collector.cpu] := by
  unfold tick
  split_ifs
  · rfl
  · rfl
  · rfl
  · rfl
  · unfold tickParent
    by_cases hk : (tickMemory cfg i e m).killed = true
    · simp only [hk, if_true]
    · rw [Bool.not_eq_true] at hk
      simp only [hk, Bool.false_eq_true, if_false]

/-- C15, as stated, fails: with user statistics only, the memory collector is forked
all the same. -/
theorem collectors_counterexample :
    ¬ (Collector.memory
          ∈ (tick userOnlyConfig 0 (sampleEnv 8) (initState userOnlyConfig 0).machine).forked ↔
        userOnlyConfig.sys = true) := by
  rw [tick_forked]
  decide

/-- C15, amended: at every tick whose pipes and forks succeed the parent forks all
three collectors, memory, user sessions and CPU, in this order, whatever the
configuration; the configuration only decides which results are rendered (nothing
from the memory and CPU steps without system statistics, nothing from the session
step without user statistics). -/
theorem collectors_forked (cfg : Config) (i : Nat) (e : TickEnv) (m : Machine)
    (hp : e.pipeOk = true) (hm : e.forkMemoryOk = true) (hu : e.forkUserOk = true)
    (hc : e.forkCpuOk = true) :
    (tick cfg i e m).forked = [Collector.memory, Collector.user, Collector.cpu] ∧
      (∀ (cfg' : Config) (m' : Machine), (tick cfg' i e m').forked = (tick cfg i e m).forked) ∧
      (cfg.sys = false → (tickMemory cfg i e m).out = [] ∧ (tickCpu cfg i e m).1.out = []) ∧
      (cfg.user = false → tickUser cfg e = []) := by
  refine ⟨?_, ?_, ?_, ?_⟩
  · rw [tick_forked, hp, hm, hu, hc]
    rfl
  · intro cfg' m'
    rw [tick_forked, tick_forked]
  · intro hs
    rw [tickMemory_out, tickCpu_out, hs]
    exact ⟨rfl, rfl⟩
  · intro hu'
    unfold tickUser
    rw [hu']
    rfl

/-- Witness of C15 (amended): the first tick of a user-only run forks all three
collectors. -/
theorem collectors_forked_witness :
    (tick userOnlyConfig 0 (sampleEnv 8) (initState userOnlyConfig 0).machine).forked
      = [Collector.memory, Collector.user, Collector.cpu] :=
  (collectors_forked userOnlyConfig 0 (sampleEnv 8) (initState userOnlyConfig 0).machine
    rfl rfl rfl rfl).1

/-! ### A failed read from a collector's pipe -/

theorem tick_prints_memory_row (cfg : Config) (i : Nat) (e : TickEnv) (m : Machine)
    (hsys : cfg.sys = true) (hrun : tickRuns cfg e = true) :
    Out.memoryRow i (getRow (tick cfg i e m).machine.memory_record i) ∈ (tick cfg i e m).out := by
  have hok : e.sysinfoOk = true := by
    simp only [tickRuns, hsys, Bool.not_true, Bool.false_or, Bool.and_eq_true] at hrun
    exact hrun.2
  rw [tick_machine_of_runs cfg i e m hrun, tick_out_of_runs cfg i e m hrun]
  apply List.mem_append_left
  apply List.mem_append_left
  apply List.mem_append_left
  apply List.mem_append_right
  rw [tickMemory_out, tickMemory_record, if_pos hsys, if_pos hsys, hok, memoryUsage_out_ok]
  apply List.mem_append_left
  apply List.mem_append_right
  unfold memory_print_rows
  rw [List.mem_map]
  refine ⟨i, List.mem_range.mpr (Nat.lt_succ_self i), ?_⟩
  simp only [decide_True, Bool.or_true, if_true]

/-- C16 at its failing input: when the `read` from `pipe_memory` returns -1, the
parent only reports the error and goes on; the tick keeps running, row 0 of the
memory history is written and printed, and the retained memory and CPU values are
overwritten. -/
theorem failed_read_continues :
    (tick (sampleConfig true true) 0 failedReadEnv
        (initState (sampleConfig true true) 0).machine).status = Status.running ∧
      (tick (sampleConfig true true) 0 failedReadEnv
        (initState (sampleConfig true true) 0).machine).err
        = ["Error reading from pipe".toList] ∧
      getRow (tick (sampleConfig true true) 0 failedReadEnv
        (initState (sampleConfig true true) 0).machine).machine.memory_record 0 ≠ [] ∧
      Out.memoryRow 0
          (getRow (tick (sampleConfig true true) 0 failedReadEnv
            (initState (sampleConfig true true) 0).machine).machine.memory_record 0)
        ∈ (tick (sampleConfig true true) 0 failedReadEnv
            (initState (sampleConfig true true) 0).machine).out ∧
      (initState (sampleConfig true true) 0).machine.memory_previous = 0 ∧
      (tick (sampleConfig true true) 0 failedReadEnv
        (initState (sampleConfig true true) 0).machine).machine.memory_previous = 8 ∧
      (initState (sampleConfig true true) 0).machine.cpu_previous = 0 ∧
      (tick (sampleConfig true true) 0 failedReadEnv
        (initState (sampleConfig true true) 0).machine).machine.cpu_previous = 500 := by
  have hrun : tickRuns (sampleConfig true true) failedReadEnv = true := rfl
  refine ⟨tick_status_of_runs _ 0 _ _ hrun, rfl,
    tick_memory_row_self _ 0 _ _ rfl hrun (by decide),
    tick_prints_memory_row _ 0 _ _ rfl hrun, rfl, ?_, rfl, ?_⟩
  · rw [tick_machine_of_runs _ 0 _ _ hrun]
    rfl
  · exact (tick_cpu_state _ 0 _ _ rfl hrun).1

/-! ### The documented sense of `isInteger` -/

/-- C17 at its failing input: `-5` and `+5` represent integers in the documented
sense (digits potentially preceded by a sign), yet `isInteger` returns false on
them. -/
theorem isInteger_rejects_sign :
    representsInteger "-5".toList = true ∧ isInteger "-5".toList = false ∧
      representsInteger "+5".toList = true ∧ isInteger "+5".toList = false := by
  decide

/-! ### Consecutive CPU snapshots -/

/-- C18: in a run with system statistics, at tick `k + 1` the retained pair read by
`cpu_output` is the snapshot of tick `k`; hence `totald` and `idled` are the
differences of the combined totals and of the idle counters of ticks `k` and `k + 1`,
the utilization depends on these two snapshots only, and, the snapshot being the one
`cpuStats` builds, the sum of the retained pair is the sum of all seven counters of
tick `k`. -/
theorem cpu_delta_consecutive (cfg : Config) (env : Nat → TickEnv) (mp0 : ℚ) (k : Nat)
    (hsys : cfg.sys = true) (hrun : ∀ j, j ≤ k → tickRuns cfg (env j) = true) :
    (runTicks cfg env mp0 (k + 1)).machine.cpu_previous = (env k).cpu.tot ∧
      (runTicks cfg env mp0 (k + 1)).machine.cpu_idle = (env k).cpu.time ∧
      totald (runTicks cfg env mp0 (k + 1)).machine.cpu_previous
          (runTicks cfg env mp0 (k + 1)).machine.cpu_idle (env (k + 1)).cpu
        = (((env (k + 1)).cpu.tot : ℚ) + ((env (k + 1)).cpu.time : ℚ))
          - (((env k).cpu.tot : ℚ) + ((env k).cpu.time : ℚ)) ∧
      idled (runTicks cfg env mp0 (k + 1)).machine.cpu_idle (env (k + 1)).cpu
        = ((env (k + 1)).cpu.time : ℚ) - ((env k).cpu.time : ℚ) ∧
      cpu_use (runTicks cfg env mp0 (k + 1)).machine.cpu_previous
          (runTicks cfg env mp0 (k + 1)).machine.cpu_idle (env (k + 1)).cpu
        = cpu_use (env k).cpu.tot (env k).cpu.time (env (k + 1)).cpu ∧
      (∀ user nice system idle iowait irq softirq : Int,
        (env k).cpu = cpuStats user nice system idle iowait irq softirq →
        (runTicks cfg env mp0 (k + 1)).machine.cpu_previous
            + (runTicks cfg env mp0 (k + 1)).machine.cpu_idle
          = user + nice + system + idle + iowait + irq + softirq) := by
  have hrunk : ∀ j, j < k → tickRuns cfg (env j) = true := fun j hj => hrun j (by omega)
  have hst := tick_cpu_state cfg k (env k) (runTicks cfg env mp0 k).machine hsys
    (hrun k (le_refl k))
  rw [← runTicks_machine_succ cfg env mp0 k hrunk] at hst
  rw [hst.1, hst.2]
  refine ⟨rfl, rfl, ?_, rfl, rfl, ?_⟩
  · unfold totald
    push_cast
    ring
  · intro user nice system idle iowait irq softirq h
    rw [h]
    unfold cpuStats
    ring

/-- Witness of C18: in the three-sample run over growing counters, the pair read at
tick 1 is the snapshot of tick 0, whose counters sum to 600. -/
theorem cpu_delta_consecutive_witness :
    (runTicks (sampleConfig true false) sampleCpuEnv 0 1).machine.cpu_previous = 500 ∧
      (runTicks (sampleConfig true false) sampleCpuEnv 0 1).machine.cpu_idle = 100 ∧
      (runTicks (sampleConfig true false) sampleCpuEnv 0 1).machine.cpu_previous
          + (runTicks (sampleConfig true false) sampleCpuEnv 0 1).machine.cpu_idle
        = 300 + 0 + 200 + 100 + 0 + 0 + 0 :=
  ⟨(cpu_delta_consecutive (sampleConfig true false) sampleCpuEnv 0 0 rfl (fun _ _ => rfl)).1,
   (cpu_delta_consecutive (sampleConfig true false) sampleCpuEnv 0 0 rfl (fun _ _ => rfl)).2.1,
   (cpu_delta_consecutive (sampleConfig true false) sampleCpuEnv 0 0 rfl
      (fun _ _ => rfl)).2.2.2.2.2 300 0 200 100 0 0 0 rfl⟩

end SystemStats
